import Mathlib

/-!
Shallow embedding of `src/app.py` (PokeBase): the view-composition engine of a
pokédex web application.  SQL queries are modelled as list comprehensions over
an explicit database of typed rows (inner `JOIN` = filtered flatMap, `LEFT JOIN`
= flatMap over `leftJoin`, `LIMIT 1` = `head?`, `ORDER BY` = a stable sort), and
Python floats over the dataset's integer percentages are modelled as exact
rationals.  Presentation-only string fields that no property touches (the
`label` field of a matchup entry, rendered with Python's `%g` format) are not
modelled.
-/

/-- Fixed locale id (`LANG_EN = 9` in the source). -/
def LANG_EN : Nat := 9

/-- Fixed version-group context (`BW_VERSION_GROUP_ID = 11`). -/
def BW_VERSION_GROUP_ID : Nat := 11

/-- Fixed learn method (`LEVELUP_METHOD_ID = 1`). -/
def LEVELUP_METHOD_ID : Nat := 1

/-- Python `x or ""` on an optional string column. -/
def optStr : Option String → String
  | none => ""
  | some s => s

/-- Python truthiness of an optional integer column (`None` and `0` are falsy). -/
def truthyNat : Option Nat → Bool
  | none => false
  | some n => n != 0

/-- Python truthiness of an optional string column (`None` and `""` are falsy). -/
def truthyStr : Option String → Bool
  | none => false
  | some s => s != ""

/-- SQL `LEFT JOIN`: when the matching rows are empty a single null row is
produced, otherwise each match produces a row. -/
def leftJoin (ms : List α) : List (Option α) :=
  if ms.isEmpty then [none] else ms.map some

/-- Model of `ORDER BY key DESC LIMIT 1`: a row of maximal key (`none` on an empty list). -/
def pickMaxBy (f : α → Nat) : List α → Option α
  | [] => none
  | x :: xs =>
    match pickMaxBy f xs with
    | none => some x
    | some b => if f b < f x then some x else some b

/-- Model of `ORDER BY key ASC LIMIT 1`: a row of minimal key (`none` on an empty list). -/
def pickMinBy (f : α → Nat) : List α → Option α
  | [] => none
  | x :: xs =>
    match pickMinBy f xs with
    | none => some x
    | some b => if f x < f b then some x else some b

/-- Python `s.replace(a, b)` for a single-character pattern. -/
def charReplace (a b : Char) (s : String) : String :=
  String.mk (s.data.map fun c => if c = a then b else c)

/-- Python `s.lower()` (identifiers are ASCII). -/
def pyLower (s : String) : String :=
  String.mk (s.data.map Char.toLower)

/-- Python `s.capitalize()`: first character upper-cased, the rest lower-cased. -/
def pyCapitalize (s : String) : String :=
  match s.data with
  | [] => ""
  | c :: cs => String.mk (c.toUpper :: cs.map Char.toLower)

/-- One step of Python `s.title()`: a letter is upper-cased after a non-letter
and lower-cased after a letter. -/
def pyTitleStep (acc : List Char × Bool) (c : Char) : List Char × Bool :=
  (acc.1 ++ [if c.isAlpha then (if acc.2 then c.toLower else c.toUpper) else c], c.isAlpha)

/-- Python `s.title()`. -/
def pyTitle (s : String) : String :=
  String.mk (s.data.foldl pyTitleStep ([], false)).1

/-- The `.replace("\n", " ").replace("\f", " ")` chain applied to flavor/effect text. -/
def sanitize (s : String) : String :=
  charReplace '\x0c' ' ' (charReplace '\n' ' ' s)

/-- Python `round(x, 2)` on the exact rational value. -/
def round2 (q : ℚ) : ℚ := (round (q * 100) : ℚ) / 100

/-- Lexicographic comparison of character lists (the order SQLite's `ORDER BY`
and Python's `sorted` use on the dataset's ASCII text). -/
def charListLe : List Char → List Char → Bool
  | [], _ => true
  | _ :: _, [] => false
  | a :: as, b :: bs => if a < b then true else if b < a then false else charListLe as bs

/-- String comparison used by the source's `sorted` / `sort` / `ORDER BY`. -/
def strLe (a b : String) : Bool := charListLe a.data b.data

-- ---------- database rows ----------

/-- A row of the `pokemon` table. -/
structure Pokemon where
  id : Nat
  identifier : String
  species_id : Nat
  is_default : Bool
deriving DecidableEq, Repr

/-- A row of the `pokemon_forms` table. -/
structure PokemonForm where
  id : Nat
  pokemon_id : Nat
deriving DecidableEq, Repr

/-- A row of the `pokemon_form_names` table. -/
structure PokemonFormName where
  pokemon_form_id : Nat
  local_language_id : Nat
  pokemon_name : String
deriving DecidableEq, Repr

/-- A row of the `pokemon_species_names` table. -/
structure SpeciesName where
  pokemon_species_id : Nat
  local_language_id : Nat
  name : String
deriving DecidableEq, Repr

/-- A row of the `pokemon_species` table (optional columns are nullable). -/
structure PokemonSpecies where
  id : Nat
  identifier : String
  evolution_chain_id : Option Nat
  growth_rate_id : Option Nat
  capture_rate : Option Nat
  base_happiness : Option Nat
  generation_id : Option Nat
  evolves_from_species_id : Option Nat
deriving DecidableEq, Repr

/-- A row of the `pokemon_stats` table. -/
structure PokemonStat where
  pokemon_id : Nat
  stat_id : Nat
  base_stat : Nat
deriving DecidableEq, Repr

/-- A row of the `stats` table. -/
structure StatRow where
  id : Nat
  identifier : String
deriving DecidableEq, Repr

/-- A row of the `stat_names` table. -/
structure StatName where
  stat_id : Nat
  local_language_id : Nat
  name : String
deriving DecidableEq, Repr

/-- A row of the `pokemon_types` table. -/
structure PokemonType where
  pokemon_id : Nat
  type_id : Nat
  slot : Nat
deriving DecidableEq, Repr

/-- A row of the `types` table. -/
structure TypeRow where
  id : Nat
  identifier : String
deriving DecidableEq, Repr

/-- A row of the `type_names` table. -/
structure TypeNameRow where
  type_id : Nat
  local_language_id : Nat
  name : String
deriving DecidableEq, Repr

/-- A row of the `type_efficacy` table (`damage_factor` is an integer percentage). -/
structure EfficacyRow where
  damage_type_id : Nat
  target_type_id : Nat
  damage_factor : Nat
deriving DecidableEq, Repr

/-- A row of the `pokemon_abilities` table. -/
structure PokemonAbility where
  pokemon_id : Nat
  ability_id : Nat
  is_hidden : Bool
  slot : Nat
deriving DecidableEq, Repr

/-- A row of the `abilities` table. -/
structure AbilityRow where
  id : Nat
  identifier : String
deriving DecidableEq, Repr

/-- A row of the `ability_names` table. -/
structure AbilityName where
  ability_id : Nat
  local_language_id : Nat
  name : String
deriving DecidableEq, Repr

/-- A row of the `ability_flavor_text` table. -/
structure AbilityFlavorText where
  ability_id : Nat
  language_id : Nat
  version_group_id : Nat
  flavor_text : String
deriving DecidableEq, Repr

/-- A row of the `growth_rates` table. -/
structure GrowthRate where
  id : Nat
  identifier : String
deriving DecidableEq, Repr

/-- A row of the `growth_rate_prose` table. -/
structure GrowthRateProse where
  growth_rate_id : Nat
  local_language_id : Nat
  name : String
deriving DecidableEq, Repr

/-- A row of the `generations` table. -/
structure Generation where
  id : Nat
  main_region_id : Option Nat
deriving DecidableEq, Repr

/-- A row of the `generation_names` table. -/
structure GenerationName where
  generation_id : Nat
  local_language_id : Nat
  name : String
deriving DecidableEq, Repr

/-- A row of the `regions` table. -/
structure Region where
  id : Nat
deriving DecidableEq, Repr

/-- A row of the `region_names` table. -/
structure RegionName where
  region_id : Nat
  local_language_id : Nat
  name : String
deriving DecidableEq, Repr

/-- A row of the `pokemon_evolution` table. -/
structure PokemonEvolution where
  evolved_species_id : Nat
  evolution_trigger_id : Option Nat
  trigger_item_id : Option Nat
  held_item_id : Option Nat
  known_move_id : Option Nat
  minimum_level : Option Nat
  minimum_happiness : Option Nat
  time_of_day : Option String
deriving DecidableEq, Repr

/-- A row of the `evolution_triggers` table. -/
structure EvolutionTrigger where
  id : Nat
  identifier : String
deriving DecidableEq, Repr

/-- A row of the `items` table. -/
structure Item where
  id : Nat
deriving DecidableEq, Repr

/-- A row of the `item_names` table. -/
structure ItemName where
  item_id : Nat
  local_language_id : Nat
  name : String
deriving DecidableEq, Repr

/-- A row of the `moves` table (optional columns are nullable). -/
structure Move where
  id : Nat
  identifier : String
  type_id : Option Nat
  damage_class_id : Option Nat
  power : Option Nat
  accuracy : Option Nat
  pp : Option Nat
  effect_id : Option Nat
deriving DecidableEq, Repr

/-- A row of the `move_names` table. -/
structure MoveName where
  move_id : Nat
  local_language_id : Nat
  name : String
deriving DecidableEq, Repr

/-- A row of the `move_damage_classes` table. -/
structure MoveDamageClassRow where
  id : Nat
  identifier : String
deriving DecidableEq, Repr

/-- A row of the `move_damage_class_prose` table. -/
structure MoveDamageClassProse where
  move_damage_class_id : Nat
  local_language_id : Nat
  name : String
deriving DecidableEq, Repr

/-- A row of the `move_effect_prose` table. -/
structure MoveEffectProse where
  move_effect_id : Nat
  local_language_id : Nat
  short_effect : Option String
deriving DecidableEq, Repr

/-- A row of the `pokemon_moves` table. -/
structure PokemonMove where
  pokemon_id : Nat
  version_group_id : Nat
  pokemon_move_method_id : Nat
  move_id : Nat
  level : Nat
deriving DecidableEq, Repr

/-- A row of the `pokemon_egg_groups` table. -/
structure PokemonEggGroup where
  species_id : Nat
  egg_group_id : Nat
deriving DecidableEq, Repr

/-- A row of the `egg_group_prose` table. -/
structure EggGroupProse where
  egg_group_id : Nat
  local_language_id : Nat
  name : String
deriving DecidableEq, Repr

/-- A row of the `pokemon_species_flavor_text` table. -/
structure SpeciesFlavorText where
  species_id : Nat
  language_id : Nat
  version_id : Nat
  flavor_text : String
deriving DecidableEq, Repr

/-- A row of the `encounters` table (only the columns the source reads). -/
structure EncounterRow where
  pokemon_id : Nat
  version_id : Nat
  location_area_id : Nat
deriving DecidableEq, Repr

/-- A row of the `location_areas` table. -/
structure LocationArea where
  id : Nat
  location_id : Nat
deriving DecidableEq, Repr

/-- A row of the `locations` table. -/
structure Location where
  id : Nat
deriving DecidableEq, Repr

/-- A row of the `location_names` table. -/
structure LocationName where
  location_id : Nat
  local_language_id : Nat
  name : String
deriving DecidableEq, Repr

/-- A row of the `versions` table. -/
structure VersionRow where
  id : Nat
deriving DecidableEq, Repr

/-- A row of the `version_names` table. -/
structure VersionName where
  version_id : Nat
  local_language_id : Nat
  name : String
deriving DecidableEq, Repr

/-- The read-only reference database (`pokedex.sqlite`). -/
structure DB where
  pokemon : List Pokemon
  pokemon_forms : List PokemonForm
  pokemon_form_names : List PokemonFormName
  pokemon_species_names : List SpeciesName
  pokemon_species : List PokemonSpecies
  pokemon_stats : List PokemonStat
  stats : List StatRow
  stat_names : List StatName
  pokemon_types : List PokemonType
  types : List TypeRow
  type_names : List TypeNameRow
  type_efficacy : List EfficacyRow
  pokemon_abilities : List PokemonAbility
  abilities : List AbilityRow
  ability_names : List AbilityName
  ability_flavor_text : List AbilityFlavorText
  growth_rates : List GrowthRate
  growth_rate_prose : List GrowthRateProse
  generations : List Generation
  generation_names : List GenerationName
  regions : List Region
  region_names : List RegionName
  pokemon_evolution : List PokemonEvolution
  evolution_triggers : List EvolutionTrigger
  items : List Item
  item_names : List ItemName
  moves : List Move
  move_names : List MoveName
  move_damage_classes : List MoveDamageClassRow
  move_damage_class_prose : List MoveDamageClassProse
  move_effect_prose : List MoveEffectProse
  pokemon_moves : List PokemonMove
  pokemon_egg_groups : List PokemonEggGroup
  egg_group_prose : List EggGroupProse
  pokemon_species_flavor_text : List SpeciesFlavorText
  encounters : List EncounterRow
  location_areas : List LocationArea
  locations : List Location
  location_names : List LocationName
  versions : List VersionRow
  version_names : List VersionName
deriving DecidableEq, Repr

-- ---------- type effectiveness calculator (`compute_type_matchups`) ----------

/-- A joined `(type, localized name)` row, as used both for the queried
pokémon's defending types and for the full attacking-type list. -/
structure TypeInfo where
  id : Nat
  identifier : String
  name : String
deriving DecidableEq, Repr

/-- One entry of a weak/resist/immune list (the presentation `label` string is
not modelled). -/
structure MatchupEntry where
  identifier : String
  name : String
  multiplier : ℚ
deriving DecidableEq, Repr

/-- The result record of `compute_type_matchups`. -/
structure Matchups where
  weak : List MatchupEntry
  resist : List MatchupEntry
  immune : List MatchupEntry
deriving DecidableEq, Repr

/-- The accumulated damage factor for attacking type `atk` against the
defending type ids `tids`: the product, over the fetched `type_efficacy` rows
whose target is one of `tids` and whose damage type is `atk`, of
`damage_factor / 100`, starting from `1.0`. -/
def typeFactor (eff : List EfficacyRow) (tids : List Nat) (atk : Nat) : ℚ :=
  (eff.filter fun r =>
      r.damage_type_id == atk && decide (r.target_type_id ∈ tids)).foldl
    (fun acc r => acc * ((r.damage_factor : ℚ) / 100)) 1

/-- The entry built for one attacking type row (multiplier rounded to 2
decimal places before classification, as in the source). -/
def mkMatchupEntry (eff : List EfficacyRow) (tids : List Nat) (t : TypeInfo) :
    MatchupEntry :=
  { identifier := t.identifier
    name := t.name
    multiplier := round2 (typeFactor eff tids t.id) }

/-- Model of `compute_type_matchups`: classify every known attacking type against the
defending types `types_rows` by the `if mult == 0 / elif mult > 1.01 /
elif mult < 0.99` chain, then sort `weak` by multiplier descending and
`resist` ascending. -/
def compute_type_matchups (attack_types : List TypeInfo) (eff : List EfficacyRow)
    (types_rows : List TypeInfo) : Matchups :=
  if types_rows.isEmpty then ⟨[], [], []⟩
  else
    let tids := types_rows.map (·.id)
    let entries := attack_types.map (mkMatchupEntry eff tids)
    let immune := entries.filter fun e => decide (e.multiplier = 0)
    let weak := entries.filter fun e =>
      decide (¬ e.multiplier = 0) && decide ((101 : ℚ)/100 < e.multiplier)
    let resist := entries.filter fun e =>
      decide (¬ e.multiplier = 0) && decide (¬ (101 : ℚ)/100 < e.multiplier) &&
        decide (e.multiplier < (99 : ℚ)/100)
    { weak := List.insertionSort (fun a b => b.multiplier ≤ a.multiplier) weak
      resist := List.insertionSort (fun a b => a.multiplier ≤ b.multiplier) resist
      immune := immune }

-- ---------- evolution condition (`describe_evo_step`) ----------

/-- The joined row handed to `describe_evo_step` by the evolution-chain query. -/
structure EvoRow where
  from_species_id : Option Nat
  from_identifier : Option String
  from_name : Option String
  to_species_id : Nat
  to_identifier : String
  to_name : Option String
  trigger_identifier : Option String
  minimum_level : Option Nat
  minimum_happiness : Option Nat
  time_of_day : Option String
  item_name : Option String
  held_item_name : Option String
  known_move_name : Option String
deriving DecidableEq, Repr

/-- Model of `describe_evo_step`: build the comma-separated condition text from the
truthy trigger fields, in source order, with the title-cased trigger kind as a
fallback. -/
def describe_evo_step (row : EvoRow) : String :=
  let trigger := optStr row.trigger_identifier
  let time_of_day := optStr row.time_of_day
  let parts : List String := []
  let parts := if truthyNat row.minimum_level then
    parts ++ ["Level " ++ toString (row.minimum_level.getD 0)] else parts
  let parts := if truthyStr row.item_name then
    parts ++ ["Use " ++ optStr row.item_name] else parts
  let parts := if truthyStr row.held_item_name then
    parts ++ ["Holding " ++ optStr row.held_item_name] else parts
  let parts := if truthyNat row.minimum_happiness then
    parts ++ ["High friendship"] else parts
  let parts := if truthyStr row.known_move_name then
    parts ++ ["Knows " ++ optStr row.known_move_name] else parts
  let parts := if time_of_day != "" then
    parts ++ [pyCapitalize time_of_day] else parts
  let parts := if parts.isEmpty && trigger != "" then
    parts ++ [pyTitle (charReplace '-' ' ' trigger)] else parts
  String.intercalate ", " parts

/-- The ordered trigger-field clauses of an evolution row, written following
the spec's words: each clause guarded by its field being present with a
non-zero / non-empty value, in the fixed field order. -/
def specConditionParts (row : EvoRow) : List String :=
  (([(truthyNat row.minimum_level, "Level " ++ toString (row.minimum_level.getD 0)),
     (truthyStr row.item_name, "Use " ++ optStr row.item_name),
     (truthyStr row.held_item_name, "Holding " ++ optStr row.held_item_name),
     (truthyNat row.minimum_happiness, "High friendship"),
     (truthyStr row.known_move_name, "Knows " ++ optStr row.known_move_name),
     (truthyStr row.time_of_day, pyCapitalize (optStr row.time_of_day))] :
    List (Bool × String)).filter (·.1)).map (·.2)

/-- The condition string as the spec describes it: the comma-separated clauses
of the truthy fields; when none, the title-cased trigger kind; when neither,
the empty string. -/
def specCondition (row : EvoRow) : String :=
  if specConditionParts row ≠ [] then
    String.intercalate ", " (specConditionParts row)
  else if optStr row.trigger_identifier ≠ "" then
    pyTitle (charReplace '-' ' ' (optStr row.trigger_identifier))
  else ""

-- ---------- base resolution (`get_pokemon_basic`) ----------

/-- The row returned by `get_pokemon_basic`. -/
structure BasicRow where
  id : Nat
  identifier : String
  species_id : Nat
  display_name : String
deriving DecidableEq, Repr

/-- Model of `get_pokemon_basic`: resolve the lower-cased identifier against `pokemon`
slugs, with a display name from `pokemon_form_names` or the species name. -/
def get_pokemon_basic (db : DB) (identifier : String) : Option BasicRow :=
  ((db.pokemon.filter fun p => p.identifier == pyLower identifier).flatMap fun p =>
    (leftJoin (db.pokemon_forms.filter fun pf => pf.pokemon_id == p.id)).flatMap fun pf =>
    (leftJoin (match pf with
      | none => []
      | some pf => db.pokemon_form_names.filter fun n =>
          n.pokemon_form_id == pf.id && n.local_language_id == LANG_EN)).flatMap fun pfn =>
    (db.pokemon_species_names.filter fun n =>
        n.pokemon_species_id == p.species_id && n.local_language_id == LANG_EN).map fun psn =>
      ({ id := p.id, identifier := p.identifier, species_id := p.species_id
         display_name := match pfn with
           | some f => f.pokemon_name
           | none => psn.name } : BasicRow)).head?

-- ---------- stats ----------

/-- One emitted stats entry of the view. -/
structure StatEntry where
  id : Nat
  identifier : String
  name : String
  value : Nat
  min : Nat
  max : Nat
  percent : Nat
deriving DecidableEq, Repr

/-- The fixed visual scale for stat bars. -/
def MAX_STAT_VIS : Nat := 180

/-- Dex-wide `(MIN(base_stat), MAX(base_stat))` for a stat category, with the
source's `(0, 255)` fallback for a category absent from `pokemon_stats`. -/
def statMinMax (db : DB) (stat_id : Nat) : Nat × Nat :=
  match (db.pokemon_stats.filter fun ps => ps.stat_id == stat_id).map (·.base_stat) with
  | [] => (0, 255)
  | v :: vs => (vs.foldl Nat.min v, vs.foldl Nat.max v)

/-- One joined row of the per-pokémon stats query. -/
structure StatJoin where
  stat_id : Nat
  stat_identifier : String
  stat_name : String
  base_stat : Nat
deriving DecidableEq, Repr

/-- The per-pokémon stats query (`ORDER BY ps.stat_id`). -/
def statRowsFor (db : DB) (pid : Nat) : List StatJoin :=
  ((db.pokemon_stats.filter fun ps => ps.pokemon_id == pid).flatMap fun ps =>
    (db.stats.filter fun s => s.id == ps.stat_id).flatMap fun s =>
    (db.stat_names.filter fun sn =>
        sn.stat_id == s.id && sn.local_language_id == LANG_EN).map fun sn =>
      ({ stat_id := ps.stat_id, stat_identifier := s.identifier
         stat_name := sn.name, base_stat := ps.base_stat } : StatJoin)).insertionSort
    fun a b => a.stat_id ≤ b.stat_id

/-- One stats entry: raw value, dex bounds, and the visual percentage
`max(5, min(int(base_val / MAX_STAT_VIS * 100), 100))` (Python `int` truncates;
the value is non-negative, so truncation is the floor). -/
def mkStatEntry (db : DB) (row : StatJoin) : StatEntry :=
  let lo_hi := statMinMax db row.stat_id
  let pct := if MAX_STAT_VIS ≠ 0 then
    (Int.floor ((row.base_stat : ℚ) / (MAX_STAT_VIS : ℚ) * 100)).toNat else 0
  { id := row.stat_id, identifier := row.stat_identifier, name := row.stat_name
    value := row.base_stat, min := lo_hi.1, max := lo_hi.2
    percent := Nat.max 5 (Nat.min pct 100) }

-- ---------- types of the queried pokémon ----------

/-- The per-pokémon types query (`ORDER BY pt.slot`). -/
def typeRowsFor (db : DB) (pid : Nat) : List TypeInfo :=
  (((db.pokemon_types.filter fun pt => pt.pokemon_id == pid).flatMap fun pt =>
    (db.types.filter fun ty => ty.id == pt.type_id).flatMap fun ty =>
    (db.type_names.filter fun tn =>
        tn.type_id == ty.id && tn.local_language_id == LANG_EN).map fun tn =>
      (pt.slot, ({ id := ty.id, identifier := ty.identifier, name := tn.name } : TypeInfo))).insertionSort
    fun a b => a.1 ≤ b.1).map (·.2)

/-- The attacking-type list of `compute_type_matchups` (`ORDER BY t.id`). -/
def attackTypesFor (db : DB) : List TypeInfo :=
  (db.types.flatMap fun t =>
    (db.type_names.filter fun n =>
        n.type_id == t.id && n.local_language_id == LANG_EN).map fun n =>
      ({ id := t.id, identifier := t.identifier, name := n.name } : TypeInfo)).insertionSort
    fun a b => a.id ≤ b.id

/-- One emitted types entry of the view. -/
structure TypeEntry where
  identifier : String
  name : String
deriving DecidableEq, Repr

-- ---------- abilities ----------

/-- One emitted abilities entry of the view. -/
structure AbilityEntry where
  identifier : String
  name : String
  is_hidden : Bool
  flavor_text : String
deriving DecidableEq, Repr

/-- The correlated subquery choosing an ability's flavor text: the row with the
greatest `version_group_id` for the fixed language. -/
def abilityFlavor (db : DB) (aid : Nat) : Option String :=
  (pickMaxBy (·.version_group_id) (db.ability_flavor_text.filter fun a =>
      a.ability_id == aid && a.language_id == LANG_EN)).map (·.flavor_text)

/-- One joined row of the abilities query. -/
structure AbilityJoin where
  identifier : String
  name : String
  is_hidden : Bool
  slot : Nat
  flavor : Option String
deriving DecidableEq, Repr

/-- The abilities query (`ORDER BY pa.slot`). -/
def abilityRowsFor (db : DB) (pid : Nat) : List AbilityJoin :=
  ((db.pokemon_abilities.filter fun pa => pa.pokemon_id == pid).flatMap fun pa =>
    (db.abilities.filter fun a => a.id == pa.ability_id).flatMap fun a =>
    (db.ability_names.filter fun an =>
        an.ability_id == a.id && an.local_language_id == LANG_EN).map fun an =>
      ({ identifier := a.identifier, name := an.name, is_hidden := pa.is_hidden
         slot := pa.slot, flavor := abilityFlavor db a.id } : AbilityJoin)).insertionSort
    fun x y => x.slot ≤ y.slot

/-- The emitted abilities list: flavor text defaulted to `""` and sanitized. -/
def abilitiesFor (db : DB) (pid : Nat) : List AbilityEntry :=
  (abilityRowsFor db pid).map fun r =>
    { identifier := r.identifier, name := r.name, is_hidden := r.is_hidden
      flavor_text := sanitize (optStr r.flavor) }

-- ---------- species info, generation, region ----------

/-- The species-level fields gathered by the composer. -/
structure SpeciesInfo where
  evo_chain_id : Option Nat
  growth_rate_name : Option String
  capture_rate : Option Nat
  base_happiness : Option Nat
  generation_name : Option String
  region_name : Option String
deriving DecidableEq, Repr

/-- The growth-rate name query (`COALESCE(grp.name, gr.identifier) ... LIMIT 1`). -/
def growthNameQuery (db : DB) (gid : Nat) : Option String :=
  ((db.growth_rates.filter fun g => g.id == gid).flatMap fun g =>
    (leftJoin (db.growth_rate_prose.filter fun p =>
        p.growth_rate_id == g.id && p.local_language_id == LANG_EN)).map fun p =>
      match p with
      | some p => p.name
      | none => g.identifier).head?

/-- The generation/region name query (`LIMIT 1`). -/
def genRegionQuery (db : DB) (gid : Nat) : Option (Option String × Option String) :=
  ((db.generations.filter fun g => g.id == gid).flatMap fun g =>
    (leftJoin (db.generation_names.filter fun n =>
        n.generation_id == g.id && n.local_language_id == LANG_EN)).flatMap fun gn =>
    (leftJoin (match g.main_region_id with
      | none => []
      | some rid => db.regions.filter fun r => r.id == rid)).flatMap fun r =>
    (leftJoin (match r with
      | none => []
      | some r => db.region_names.filter fun rn =>
          rn.region_id == r.id && rn.local_language_id == LANG_EN)).map fun rn =>
      (gn.map (·.name), rn.map (·.name))).head?

/-- The species section of the composer: every field stays `none` when the
species row is absent, and the growth/generation lookups run only when the
respective id column is truthy. -/
def speciesInfoFor (db : DB) (sid : Nat) : SpeciesInfo :=
  match (db.pokemon_species.filter fun s => s.id == sid).head? with
  | none => ⟨none, none, none, none, none, none⟩
  | some s =>
    let genreg := if truthyNat s.generation_id then
      genRegionQuery db (s.generation_id.getD 0) else none
    { evo_chain_id := s.evolution_chain_id
      growth_rate_name := if truthyNat s.growth_rate_id then
        growthNameQuery db (s.growth_rate_id.getD 0) else none
      capture_rate := s.capture_rate
      base_happiness := s.base_happiness
      generation_name := match genreg with | some gr => gr.1 | none => none
      region_name := match genreg with | some gr => gr.2 | none => none }

-- ---------- evolution chain ----------

/-- The evolution-chain query (`WHERE to_ps.evolution_chain_id = ?`,
`ORDER BY to_ps.id`). -/
def evoRowsFor (db : DB) (chain : Nat) : List EvoRow :=
  (db.pokemon_evolution.flatMap fun e =>
    (db.pokemon_species.filter fun ps =>
        ps.id == e.evolved_species_id && ps.evolution_chain_id == some chain).flatMap fun to_ps =>
    (leftJoin (match to_ps.evolves_from_species_id with
      | none => []
      | some fid => db.pokemon_species.filter fun ps => ps.id == fid)).flatMap fun from_ps =>
    (leftJoin (db.pokemon_species_names.filter fun n =>
        n.pokemon_species_id == to_ps.id && n.local_language_id == LANG_EN)).flatMap fun to_psn =>
    (leftJoin (match from_ps with
      | none => []
      | some fp => db.pokemon_species_names.filter fun n =>
          n.pokemon_species_id == fp.id && n.local_language_id == LANG_EN)).flatMap fun from_psn =>
    (leftJoin (match e.evolution_trigger_id with
      | none => []
      | some tid => db.evolution_triggers.filter fun t => t.id == tid)).flatMap fun et =>
    (leftJoin (match e.trigger_item_id with
      | none => []
      | some iid => db.items.filter fun it => it.id == iid)).flatMap fun it =>
    (leftJoin (match it with
      | none => []
      | some itr => db.item_names.filter fun n =>
          n.item_id == itr.id && n.local_language_id == LANG_EN)).flatMap fun itn =>
    (leftJoin (match e.held_item_id with
      | none => []
      | some iid => db.items.filter fun x => x.id == iid)).flatMap fun hit =>
    (leftJoin (match hit with
      | none => []
      | some hx => db.item_names.filter fun n =>
          n.item_id == hx.id && n.local_language_id == LANG_EN)).flatMap fun hitn =>
    (leftJoin (match e.known_move_id with
      | none => []
      | some mid => db.moves.filter fun m => m.id == mid)).flatMap fun km =>
    (leftJoin (match km with
      | none => []
      | some kmr => db.move_names.filter fun n =>
          n.move_id == kmr.id && n.local_language_id == LANG_EN)).map fun kmn =>
      ({ from_species_id := from_ps.map (·.id)
         from_identifier := from_ps.map (·.identifier)
         from_name := from_psn.map (·.name)
         to_species_id := to_ps.id
         to_identifier := to_ps.identifier
         to_name := to_psn.map (·.name)
         trigger_identifier := et.map (·.identifier)
         minimum_level := e.minimum_level
         minimum_happiness := e.minimum_happiness
         time_of_day := e.time_of_day
         item_name := itn.map (·.name)
         held_item_name := hitn.map (·.name)
         known_move_name := kmn.map (·.name) } : EvoRow)).insertionSort
    fun a b => a.to_species_id ≤ b.to_species_id

/-- The `from` side of an emitted evolution edge. -/
structure EvoFromNode where
  species_id : Nat
  identifier : Option String
  name : Option String
deriving DecidableEq, Repr

/-- The `to` side of an emitted evolution edge. -/
structure EvoToNode where
  species_id : Nat
  identifier : String
  name : Option String
deriving DecidableEq, Repr

/-- One emitted evolution edge of the view. -/
structure EvolutionEntry where
  «from» : Option EvoFromNode
  «to» : EvoToNode
  condition : String
deriving DecidableEq, Repr

/-- The emitted evolution edges for a chain. -/
def evolutionEdgesFor (db : DB) (chain : Nat) : List EvolutionEntry :=
  (evoRowsFor db chain).map fun row =>
    { «from» := match row.from_species_id with
        | some i => some ⟨i, row.from_identifier, row.from_name⟩
        | none => none
      «to» := ⟨row.to_species_id, row.to_identifier, row.to_name⟩
      condition := describe_evo_step row }

-- ---------- egg groups and flavor text ----------

/-- The egg-groups query (`ORDER BY peg.egg_group_id`). -/
def eggGroupsFor (db : DB) (sid : Nat) : List String :=
  (((db.pokemon_egg_groups.filter fun pe => pe.species_id == sid).flatMap fun pe =>
    (db.egg_group_prose.filter fun p =>
        p.egg_group_id == pe.egg_group_id && p.local_language_id == LANG_EN).map fun p =>
      (pe.egg_group_id, p.name)).insertionSort fun a b => a.1 ≤ b.1).map (·.2)

/-- The species flavor text: latest `version_id` row for the fixed language,
sanitized; `""` when no row exists. -/
def flavorTextFor (db : DB) (sid : Nat) : String :=
  match pickMaxBy (·.version_id) (db.pokemon_species_flavor_text.filter fun f =>
      f.species_id == sid && f.language_id == LANG_EN) with
  | some ft => sanitize ft.flavor_text
  | none => ""

/-- The local sprite path (`f"/static/sprites/{pokemon_id}.png"`). -/
def sprite_url (pokemon_id : Nat) : String :=
  "/static/sprites/" ++ toString pokemon_id ++ ".png"

-- ---------- moves ----------

/-- One joined row of the moves query, keeping the underlying `pokemon_moves`
and `moves` rows together with the joined display columns. -/
structure MoveJoinRow where
  pm : PokemonMove
  m : Move
  move_name : String
  type_identifier : Option String
  type_name : Option String
  damage_class_name : Option String
  short_effect : Option String
deriving DecidableEq, Repr

/-- The moves query for the fixed `(version group, level-up)` context. -/
def moveJoinRows (db : DB) (pid : Nat) : List MoveJoinRow :=
  (db.pokemon_moves.filter fun pm =>
      pm.pokemon_id == pid && pm.version_group_id == BW_VERSION_GROUP_ID &&
        pm.pokemon_move_method_id == LEVELUP_METHOD_ID).flatMap fun pm =>
  (db.moves.filter fun m => m.id == pm.move_id).flatMap fun m =>
  (leftJoin (db.move_names.filter fun mn =>
      mn.move_id == m.id && mn.local_language_id == LANG_EN)).flatMap fun mn =>
  (leftJoin (match m.type_id with
    | none => []
    | some tid => db.types.filter fun t => t.id == tid)).flatMap fun t =>
  (leftJoin (match t with
    | none => []
    | some tr => db.type_names.filter fun tn =>
        tn.type_id == tr.id && tn.local_language_id == LANG_EN)).flatMap fun tn =>
  (leftJoin (match m.damage_class_id with
    | none => []
    | some did => db.move_damage_classes.filter fun d => d.id == did)).flatMap fun mdc =>
  (leftJoin (match mdc with
    | none => []
    | some d => db.move_damage_class_prose.filter fun p =>
        p.move_damage_class_id == d.id && p.local_language_id == LANG_EN)).flatMap fun mdcp =>
  (leftJoin (match m.effect_id with
    | none => []
    | some eid => db.move_effect_prose.filter fun p =>
        p.move_effect_id == eid && p.local_language_id == LANG_EN)).map fun mep =>
    { pm := pm, m := m
      move_name := match mn with | some mnr => mnr.name | none => m.identifier
      type_identifier := t.map (·.identifier)
      type_name := tn.map (·.name)
      damage_class_name := mdcp.map (·.name)
      short_effect := match mep with | some p => p.short_effect | none => none }

/-- The moves ordering (`ORDER BY pm.level, m.identifier`). -/
def moveLe (a b : MoveJoinRow) : Bool :=
  decide (a.pm.level < b.pm.level) ||
    (decide (a.pm.level = b.pm.level) && strLe a.m.identifier b.m.identifier)

/-- The moves query result in emission order. -/
def sortedMoveRows (db : DB) (pid : Nat) : List MoveJoinRow :=
  List.insertionSort (fun a b => moveLe a b = true) (moveJoinRows db pid)

/-- One emitted moves entry of the view. -/
structure MoveEntry where
  name : String
  level : Nat
  type_identifier : Option String
  type_name : Option String
  category : Option String
  power : Option Nat
  accuracy : Option Nat
  pp : Option Nat
  effect : String
deriving DecidableEq, Repr

/-- Format one joined move row for emission. -/
def mkMoveEntry (r : MoveJoinRow) : MoveEntry :=
  { name := pyTitle (charReplace '-' ' ' r.move_name)
    level := r.pm.level
    type_identifier := r.type_identifier
    type_name := r.type_name
    category := r.damage_class_name
    power := r.m.power
    accuracy := r.m.accuracy
    pp := r.m.pp
    effect := sanitize (optStr r.short_effect) }

/-- The emitted moves list. -/
def movesFor (db : DB) (pid : Nat) : List MoveEntry :=
  (sortedMoveRows db pid).map mkMoveEntry

-- ---------- sibling forms ----------

/-- One emitted sibling-form entry of the view. -/
structure FormEntry where
  identifier : String
  name : String
  is_default : Bool
deriving DecidableEq, Repr

/-- The sibling-forms query (`WHERE p.species_id = ?`, `ORDER BY p.id`). -/
def formRowsFor (db : DB) (sid : Nat) : List FormEntry :=
  (((db.pokemon.filter fun p => p.species_id == sid).flatMap fun p =>
    (leftJoin (db.pokemon_forms.filter fun pf => pf.pokemon_id == p.id)).flatMap fun pf =>
    (leftJoin (match pf with
      | none => []
      | some pfr => db.pokemon_form_names.filter fun n =>
          n.pokemon_form_id == pfr.id && n.local_language_id == LANG_EN)).flatMap fun pfn =>
    (db.pokemon_species_names.filter fun n =>
        n.pokemon_species_id == p.species_id && n.local_language_id == LANG_EN).map fun psn =>
      (p.id, ({ identifier := p.identifier
                name := match pfn with | some f => f.pokemon_name | none => psn.name
                is_default := p.is_default } : FormEntry))).insertionSort
    fun a b => a.1 ≤ b.1).map (·.2)

-- ---------- encounters ----------

/-- The raw encounters query: `(version name, location name)` pairs, capped by
the source's `LIMIT 40` row budget. -/
def encounterJoinRows (db : DB) (pid : Nat) : List (String × String) :=
  ((db.encounters.filter fun e => e.pokemon_id == pid).flatMap fun e =>
    (db.location_areas.filter fun la => la.id == e.location_area_id).flatMap fun la =>
    (db.locations.filter fun l => l.id == la.location_id).flatMap fun l =>
    (db.location_names.filter fun lnm =>
        lnm.location_id == l.id && lnm.local_language_id == LANG_EN).flatMap fun lnm =>
    (db.versions.filter fun v => v.id == e.version_id).flatMap fun v =>
    (db.version_names.filter fun vn =>
        vn.version_id == v.id && vn.local_language_id == LANG_EN).map fun vn =>
      (vn.name, lnm.name)).take 40

/-- Model of `encounter_map.setdefault(ver, set()).add(loc)`: group one raw pair into
the per-version distinct-location map (insertion-ordered keys, deduplicated
location sets). -/
def addEncounter (acc : List (String × List String)) (r : String × String) :
    List (String × List String) :=
  match acc with
  | [] => [(r.1, [r.2])]
  | (k, ls) :: rest =>
    if k = r.1 then (k, if r.2 ∈ ls then ls else ls ++ [r.2]) :: rest
    else (k, ls) :: addEncounter rest r

/-- One emitted encounters entry of the view. -/
structure EncounterEntry where
  version : String
  locations : List String
deriving DecidableEq, Repr

/-- The emitted encounters: per version the sorted distinct locations capped
at 5, versions sorted by name. -/
def encountersFor (db : DB) (pid : Nat) : List EncounterEntry :=
  List.insertionSort (fun a b => strLe a.version b.version = true)
    ((((encounterJoinRows db pid).foldl addEncounter []).map fun vl =>
      ({ version := vl.1
         locations := (List.insertionSort (fun a b => strLe a b = true) vl.2).take 5 } : EncounterEntry)))

-- ---------- navigation ----------

/-- One emitted navigation entry of the view. -/
structure NavEntry where
  dex : Nat
  identifier : String
  name : String
deriving DecidableEq, Repr

/-- The joined `pokemon_species × pokemon_species_names` rows both navigation
queries range over. -/
def navJoinRows (db : DB) : List (PokemonSpecies × SpeciesName) :=
  db.pokemon_species.flatMap fun ps =>
    (db.pokemon_species_names.filter fun n =>
        n.pokemon_species_id == ps.id && n.local_language_id == LANG_EN).map fun n => (ps, n)

/-- Model of `nav_prev`: the nearest named species with a strictly smaller id. -/
def nav_prev_for (db : DB) (sid : Nat) : Option NavEntry :=
  (pickMaxBy (fun r => r.1.id)
      ((navJoinRows db).filter fun r => decide (r.1.id < sid))).map fun r =>
    ⟨r.1.id, r.1.identifier, r.2.name⟩

/-- Model of `nav_next`: the nearest named species with a strictly larger id. -/
def nav_next_for (db : DB) (sid : Nat) : Option NavEntry :=
  (pickMinBy (fun r => r.1.id)
      ((navJoinRows db).filter fun r => decide (sid < r.1.id))).map fun r =>
    ⟨r.1.id, r.1.identifier, r.2.name⟩

-- ---------- the composed view ----------

/-- The composed, presentation-ready structure returned to callers. -/
structure PokemonView where
  identifier : String
  display_name : String
  dex : Nat
  stats : List StatEntry
  total : Nat
  types : List TypeEntry
  abilities : List AbilityEntry
  sprite_url : String
  moves : List MoveEntry
  evolutions : List EvolutionEntry
  egg_groups : List String
  growth_rate : Option String
  capture_rate : Option Nat
  base_happiness : Option Nat
  flavor_text : String
  generation : Option String
  region : Option String
  type_matchups : Matchups
  forms : List FormEntry
  nav_prev : Option NavEntry
  nav_next : Option NavEntry
  encounters : List EncounterEntry
deriving DecidableEq, Repr

/-- The success branch of `get_pokemon_data`, composing every section against
the resolved base row. -/
def mkView (db : DB) (base : BasicRow) : PokemonView :=
  let stat_rows := statRowsFor db base.id
  let type_rows := typeRowsFor db base.id
  let info := speciesInfoFor db base.species_id
  let forms := formRowsFor db base.species_id
  { identifier := base.identifier
    display_name := base.display_name
    dex := base.species_id
    stats := stat_rows.map (mkStatEntry db)
    total := (stat_rows.map (·.base_stat)).sum
    types := type_rows.map fun t => ({ identifier := t.identifier, name := t.name } : TypeEntry)
    abilities := abilitiesFor db base.id
    sprite_url := sprite_url base.id
    moves := movesFor db base.id
    evolutions := if truthyNat info.evo_chain_id then
      evolutionEdgesFor db (info.evo_chain_id.getD 0) else []
    egg_groups := eggGroupsFor db base.species_id
    growth_rate := info.growth_rate_name
    capture_rate := info.capture_rate
    base_happiness := info.base_happiness
    flavor_text := flavorTextFor db base.species_id
    generation := info.generation_name
    region := info.region_name
    type_matchups := compute_type_matchups (attackTypesFor db) db.type_efficacy type_rows
    forms := if forms.length ≤ 1 then [] else forms
    nav_prev := nav_prev_for db base.species_id
    nav_next := nav_next_for db base.species_id
    encounters := encountersFor db base.id }

/-- Model of `get_pokemon_data`: `None` when the identifier resolves to no base row or
the base row has no stat rows; otherwise the composed view. -/
def get_pokemon_data (db : DB) (identifier : String) : Option PokemonView :=
  match get_pokemon_basic db identifier with
  | none => none
  | some base =>
    if (statRowsFor db base.id).isEmpty then none
    else some (mkView db base)

-- ---------- a concrete reference database used by the witnesses ----------

/-- A small concrete instance of the reference dataset: two species (`aaa`
with an alternate form `aaa-x`, and `bbb`), one stat category, two types with
a zero-factor efficacy entry, one ability, level-up moves in and out of the
fixed context, and encounter rows. -/
def db0 : DB :=
  { pokemon := [⟨1, "aaa", 1, true⟩, ⟨3, "aaa-x", 1, false⟩, ⟨2, "bbb", 2, true⟩]
    pokemon_forms := []
    pokemon_form_names := []
    pokemon_species_names := [⟨1, 9, "Aaa"⟩, ⟨2, 9, "Bbb"⟩]
    pokemon_species := [⟨1, "aaa", none, none, none, none, none, none⟩,
                        ⟨2, "bbb", none, none, none, none, none, none⟩]
    pokemon_stats := [⟨1, 1, 10⟩, ⟨2, 1, 50⟩]
    stats := [⟨1, "hp"⟩]
    stat_names := [⟨1, 9, "HP"⟩]
    pokemon_types := [⟨1, 1, 1⟩]
    types := [⟨1, "normal"⟩, ⟨2, "ghost"⟩]
    type_names := [⟨1, 9, "Normal"⟩, ⟨2, 9, "Ghost"⟩]
    type_efficacy := [⟨1, 1, 100⟩, ⟨2, 1, 0⟩]
    pokemon_abilities := [⟨1, 7, false, 1⟩]
    abilities := [⟨7, "static"⟩]
    ability_names := [⟨7, 9, "Static"⟩]
    ability_flavor_text := [⟨7, 9, 11, "zap\nzzz"⟩]
    growth_rates := []
    growth_rate_prose := []
    generations := []
    generation_names := []
    regions := []
    region_names := []
    pokemon_evolution := []
    evolution_triggers := []
    items := []
    item_names := []
    moves := [⟨101, "tackle", some 1, none, some 40, some 100, some 35, none⟩,
              ⟨102, "growl", none, none, none, none, some 40, none⟩,
              ⟨103, "pound", none, none, none, none, none, none⟩,
              ⟨104, "cut", none, none, none, none, none, none⟩]
    move_names := [⟨101, 9, "Tackle"⟩, ⟨102, 9, "Growl"⟩]
    move_damage_classes := []
    move_damage_class_prose := []
    move_effect_prose := []
    pokemon_moves := [⟨1, 11, 1, 101, 5⟩, ⟨1, 11, 1, 102, 1⟩,
                      ⟨1, 10, 1, 103, 1⟩, ⟨1, 11, 2, 104, 1⟩]
    pokemon_egg_groups := []
    egg_group_prose := []
    pokemon_species_flavor_text := [⟨1, 9, 1, "line1\nline2\x0cend"⟩]
    encounters := [⟨1, 1, 1⟩, ⟨1, 1, 2⟩]
    location_areas := [⟨1, 10⟩, ⟨2, 11⟩]
    locations := [⟨10⟩, ⟨11⟩]
    location_names := [⟨10, 9, "Forest"⟩, ⟨11, 9, "Cave"⟩]
    versions := [⟨1⟩]
    version_names := [⟨1, 9, "Red"⟩] }

-- ---------- lemmas ----------

theorem optStr_ne_empty_eq_truthyStr (o : Option String) :
    (optStr o != "") = truthyStr o := by
  cases o <;> simp [optStr, truthyStr]

theorem intercalate_nil (s : String) : String.intercalate s [] = "" := rfl

theorem intercalate_singleton (s a : String) : String.intercalate s [a] = a := rfl

-- ---------- C5 ----------

/-- C5 (counterexample): the claim says a present happiness threshold always
contributes the fixed phrase, but on a row whose `minimum_happiness` column is
present with value `0` (falsy in Python) the code emits the empty condition,
not "High friendship". -/
theorem describe_evo_step_presence_counterexample :
    describe_evo_step ⟨none, none, none, 2, "x", none, none, none, some 0, none, none,
        none, none⟩ = "" ∧
    describe_evo_step ⟨none, none, none, 2, "x", none, none, none, some 0, none, none,
        none, none⟩ ≠ "High friendship" := by
  constructor <;> decide

/-- C5 (amended): for every evolution edge row, the derived condition string is
the comma-separated concatenation of the clauses for exactly the trigger fields
that are present with truthy (non-zero, non-empty) values, in the fixed order
level, use-item, held-item, happiness phrase, known-move, time-of-day; when no
such field exists, the title-cased trigger kind (when itself present and
non-empty), and otherwise the empty string. -/
theorem describe_evo_step_eq_specCondition (row : EvoRow) :
    describe_evo_step row = specCondition row := by
  unfold describe_evo_step specCondition specConditionParts
  cases h1 : truthyNat row.minimum_level <;>
    cases h2 : truthyStr row.item_name <;>
    cases h3 : truthyStr row.held_item_name <;>
    cases h4 : truthyNat row.minimum_happiness <;>
    cases h5 : truthyStr row.known_move_name <;>
    cases h6 : truthyStr row.time_of_day <;>
    cases h7 : optStr row.trigger_identifier != "" <;>
    simp [optStr_ne_empty_eq_truthyStr, bne_iff_ne, h1, h2, h3, h4, h5, h6, h7,
      List.filter] <;>
    simp_all [bne_eq_false_iff_eq, intercalate_nil, intercalate_singleton]

-- ---------- C1 ----------

theorem trows_isEmpty_false {trows : List TypeInfo} (ht : trows ≠ []) :
    trows.isEmpty = false := by
  cases trows
  · exact absurd rfl ht
  · rfl

theorem mem_weak_iff (ats : List TypeInfo) (eff : List EfficacyRow)
    {trows : List TypeInfo} (ht : trows ≠ []) (e : MatchupEntry) :
    e ∈ (compute_type_matchups ats eff trows).weak ↔
      e ∈ ats.map (mkMatchupEntry eff (trows.map (·.id))) ∧
        e.multiplier ≠ 0 ∧ (101 : ℚ)/100 < e.multiplier := by
  simp [compute_type_matchups, trows_isEmpty_false ht, List.mem_filter,
    and_assoc]

theorem mem_resist_iff (ats : List TypeInfo) (eff : List EfficacyRow)
    {trows : List TypeInfo} (ht : trows ≠ []) (e : MatchupEntry) :
    e ∈ (compute_type_matchups ats eff trows).resist ↔
      e ∈ ats.map (mkMatchupEntry eff (trows.map (·.id))) ∧
        e.multiplier ≠ 0 ∧ ¬ (101 : ℚ)/100 < e.multiplier ∧
          e.multiplier < (99 : ℚ)/100 := by
  simp [compute_type_matchups, trows_isEmpty_false ht, List.mem_filter,
    and_assoc]

theorem mem_immune_iff (ats : List TypeInfo) (eff : List EfficacyRow)
    {trows : List TypeInfo} (ht : trows ≠ []) (e : MatchupEntry) :
    e ∈ (compute_type_matchups ats eff trows).immune ↔
      e ∈ ats.map (mkMatchupEntry eff (trows.map (·.id))) ∧ e.multiplier = 0 := by
  simp [compute_type_matchups, trows_isEmpty_false ht, List.mem_filter]

/-- C1: against any non-empty defending type list, the classification follows
the rounded multiplier: entries in `weak` have multiplier `> 1.01`, in `resist`
`< 0.99` (and non-zero), in `immune` exactly `0`; the three lists are pairwise
disjoint; and every known attacking type is placed according to its rounded
product of damage factors — into `immune` when it is `0`, into `weak` when
`> 1.01`, into `resist` when non-zero and `< 0.99`, and into no list at all
when it lies in the neutral band `[0.99, 1.01]`. -/
theorem compute_type_matchups_classification
    (ats : List TypeInfo) (eff : List EfficacyRow) (trows : List TypeInfo)
    (ht : trows ≠ []) :
    (∀ e ∈ (compute_type_matchups ats eff trows).weak,
        (101 : ℚ)/100 < e.multiplier) ∧
    (∀ e ∈ (compute_type_matchups ats eff trows).resist,
        e.multiplier < (99 : ℚ)/100 ∧ e.multiplier ≠ 0) ∧
    (∀ e ∈ (compute_type_matchups ats eff trows).immune, e.multiplier = 0) ∧
    (∀ e ∈ (compute_type_matchups ats eff trows).weak,
        e ∉ (compute_type_matchups ats eff trows).resist ∧
        e ∉ (compute_type_matchups ats eff trows).immune) ∧
    (∀ e ∈ (compute_type_matchups ats eff trows).resist,
        e ∉ (compute_type_matchups ats eff trows).immune) ∧
    (∀ t ∈ ats,
      (round2 (typeFactor eff (trows.map (·.id)) t.id) = 0 →
        mkMatchupEntry eff (trows.map (·.id)) t ∈
          (compute_type_matchups ats eff trows).immune) ∧
      ((101 : ℚ)/100 < round2 (typeFactor eff (trows.map (·.id)) t.id) →
        mkMatchupEntry eff (trows.map (·.id)) t ∈
          (compute_type_matchups ats eff trows).weak) ∧
      (round2 (typeFactor eff (trows.map (·.id)) t.id) ≠ 0 →
        round2 (typeFactor eff (trows.map (·.id)) t.id) < (99 : ℚ)/100 →
        mkMatchupEntry eff (trows.map (·.id)) t ∈
          (compute_type_matchups ats eff trows).resist) ∧
      ((99 : ℚ)/100 ≤ round2 (typeFactor eff (trows.map (·.id)) t.id) →
        round2 (typeFactor eff (trows.map (·.id)) t.id) ≤ (101 : ℚ)/100 →
        mkMatchupEntry eff (trows.map (·.id)) t ∉
          (compute_type_matchups ats eff trows).weak ∧
        mkMatchupEntry eff (trows.map (·.id)) t ∉
          (compute_type_matchups ats eff trows).resist ∧
        mkMatchupEntry eff (trows.map (·.id)) t ∉
          (compute_type_matchups ats eff trows).immune)) := by
  refine ⟨?_, ?_, ?_, ?_, ?_, ?_⟩
  · intro e he
    exact ((mem_weak_iff ats eff ht e).1 he).2.2
  · intro e he
    have h := (mem_resist_iff ats eff ht e).1 he
    exact ⟨h.2.2.2, h.2.1⟩
  · intro e he
    exact ((mem_immune_iff ats eff ht e).1 he).2
  · intro e he
    have hw := (mem_weak_iff ats eff ht e).1 he
    constructor
    · intro hr
      have h := (mem_resist_iff ats eff ht e).1 hr
      have : (101 : ℚ)/100 < (99 : ℚ)/100 := lt_trans hw.2.2 h.2.2.2
      norm_num at this
    · intro hi
      exact hw.2.1 ((mem_immune_iff ats eff ht e).1 hi).2
  · intro e he hi
    exact ((mem_resist_iff ats eff ht e).1 he).2.1
      ((mem_immune_iff ats eff ht e).1 hi).2
  · intro t htmem
    have hmem : mkMatchupEntry eff (trows.map (·.id)) t ∈
        ats.map (mkMatchupEntry eff (trows.map (·.id))) :=
      List.mem_map_of_mem _ htmem
    have hmul : (mkMatchupEntry eff (trows.map (·.id)) t).multiplier =
        round2 (typeFactor eff (trows.map (·.id)) t.id) := rfl
    refine ⟨?_, ?_, ?_, ?_⟩
    · intro h0
      exact (mem_immune_iff ats eff ht _).2 ⟨hmem, by rw [hmul, h0]⟩
    · intro hgt
      refine (mem_weak_iff ats eff ht _).2 ⟨hmem, ?_, by rw [hmul]; exact hgt⟩
      rw [hmul]
      intro h0
      rw [h0] at hgt
      norm_num at hgt
    · intro hne hlt
      refine (mem_resist_iff ats eff ht _).2 ⟨hmem, by rw [hmul]; exact hne, ?_, ?_⟩
      · rw [hmul]
        intro hgt
        have : (101 : ℚ)/100 < (99 : ℚ)/100 := lt_trans hgt hlt
        norm_num at this
      · rw [hmul]; exact hlt
    · intro hlo hhi
      refine ⟨?_, ?_, ?_⟩
      · intro hw
        have h := ((mem_weak_iff ats eff ht _).1 hw).2.2
        rw [hmul] at h
        exact absurd hhi (not_le_of_lt h)
      · intro hr
        have h := ((mem_resist_iff ats eff ht _).1 hr).2.2.2
        rw [hmul] at h
        exact absurd hlo (not_le_of_lt h)
      · intro hi
        have h := ((mem_immune_iff ats eff ht _).1 hi).2
        rw [hmul] at h
        rw [h] at hlo
        norm_num at hlo

/-- C1 (witness): in the concrete dataset `db0`, attacking type `ghost` has
rounded multiplier `0` against defending type `normal` and is therefore placed
in the immune list. -/
theorem compute_type_matchups_classification_witness :
    mkMatchupEntry db0.type_efficacy (([⟨1, "normal", "Normal"⟩] : List TypeInfo).map (·.id))
        ⟨2, "ghost", "Ghost"⟩ ∈
      (compute_type_matchups [⟨1, "normal", "Normal"⟩, ⟨2, "ghost", "Ghost"⟩]
        db0.type_efficacy [⟨1, "normal", "Normal"⟩]).immune := by
  have h := compute_type_matchups_classification
    [⟨1, "normal", "Normal"⟩, ⟨2, "ghost", "Ghost"⟩] db0.type_efficacy
    [⟨1, "normal", "Normal"⟩] (by simp)
  refine (h.2.2.2.2.2 ⟨2, "ghost", "Ghost"⟩ (by decide)).1 ?_
  have hf : db0.type_efficacy.filter (fun r =>
      r.damage_type_id == 2 && decide (r.target_type_id ∈ ([1] : List Nat))) =
      [⟨2, 1, 0⟩] := by decide
  show round2 (typeFactor db0.type_efficacy [1] 2) = 0
  rw [typeFactor, hf]
  simp [round2]

-- ---------- composer structure lemmas ----------

theorem get_pokemon_data_eq {db : DB} {i : String} {v : PokemonView}
    (h : get_pokemon_data db i = some v) :
    ∃ b, get_pokemon_basic db i = some b ∧ (statRowsFor db b.id).isEmpty = false ∧
      v = mkView db b := by
  cases hb : get_pokemon_basic db i with
  | none => simp [get_pokemon_data, hb] at h
  | some b =>
    simp only [get_pokemon_data, hb] at h
    by_cases hs : (statRowsFor db b.id).isEmpty
    · rw [if_pos hs] at h
      exact absurd h (by simp)
    · rw [if_neg hs] at h
      refine ⟨b, rfl, by simpa using hs, ?_⟩
      exact (Option.some_inj.1 h).symm

theorem mkView_dex (db : DB) (b : BasicRow) : (mkView db b).dex = b.species_id := rfl

theorem mkView_stats (db : DB) (b : BasicRow) :
    (mkView db b).stats = (statRowsFor db b.id).map (mkStatEntry db) := rfl

theorem mkView_sprite_url (db : DB) (b : BasicRow) :
    (mkView db b).sprite_url = sprite_url b.id := rfl

theorem mkView_moves (db : DB) (b : BasicRow) :
    (mkView db b).moves = movesFor db b.id := rfl

theorem mkView_forms (db : DB) (b : BasicRow) :
    (mkView db b).forms = if (formRowsFor db b.species_id).length ≤ 1 then []
      else formRowsFor db b.species_id := rfl

theorem mkView_flavor_text (db : DB) (b : BasicRow) :
    (mkView db b).flavor_text = flavorTextFor db b.species_id := rfl

theorem mkView_abilities (db : DB) (b : BasicRow) :
    (mkView db b).abilities = abilitiesFor db b.id := rfl

theorem mkView_nav_prev (db : DB) (b : BasicRow) :
    (mkView db b).nav_prev = nav_prev_for db b.species_id := rfl

theorem mkView_nav_next (db : DB) (b : BasicRow) :
    (mkView db b).nav_next = nav_next_for db b.species_id := rfl

theorem mkView_encounters (db : DB) (b : BasicRow) :
    (mkView db b).encounters = encountersFor db b.id := rfl

-- ---------- C4 ----------

/-- C4: composition returns `none` exactly in the two not-found situations —
no base row matches the lower-cased identifier, or the matched base row has no
stat rows; in every other case a composed view is returned (all other missing
data is absorbed into empty or null fields by the section functions). -/
theorem get_pokemon_data_not_found (db : DB) (ident : String) :
    (get_pokemon_basic db ident = none → get_pokemon_data db ident = none) ∧
    (∀ b, get_pokemon_basic db ident = some b →
      ((statRowsFor db b.id = [] → get_pokemon_data db ident = none) ∧
       (statRowsFor db b.id ≠ [] → ∃ v, get_pokemon_data db ident = some v))) := by
  constructor
  · intro hb
    simp [get_pokemon_data, hb]
  · intro b hb
    constructor
    · intro hs
      simp [get_pokemon_data, hb, hs]
    · intro hs
      refine ⟨mkView db b, ?_⟩
      simp only [get_pokemon_data, hb]
      rw [if_neg (by simpa [List.isEmpty_iff] using hs)]

/-- C4 (witness): in `db0`, the unknown identifier `"zzz"` yields `none`, and
the known identifier `"aaa"` (whose base row has stat rows) yields a view. -/
theorem get_pokemon_data_not_found_witness :
    get_pokemon_data db0 "zzz" = none ∧ (get_pokemon_data db0 "aaa").isSome = true := by
  constructor
  · exact (get_pokemon_data_not_found db0 "zzz").1 (by decide)
  · obtain ⟨v, hv⟩ := ((get_pokemon_data_not_found db0 "aaa").2 ⟨1, "aaa", 1, "Aaa"⟩
      (by decide)).2 (by decide)
    rw [hv]
    rfl

-- ---------- C3 ----------

/-- C3 (counterexample): the successfully composed view for `"aaa"` (resolved
base row id 1) carries `sprite_url = "/static/sprites/1.png"`, not the claimed
template `"/sprites/1.png"`. -/
theorem view_sprite_url_counterexample :
    (get_pokemon_data db0 "aaa").map (fun v => v.sprite_url) =
      some "/static/sprites/1.png" ∧
    ("/static/sprites/1.png" : String) ≠ "/sprites/1.png" := by
  constructor <;> decide

/-- C3 (amended): for every successfully composed view, `sprite_url` equals
the template `"/static/sprites/{form_id}.png"` instantiated with the resolved
base row's numeric id — a deterministic function of that id alone. -/
theorem view_sprite_url_eq (db : DB) (i : String) (v : PokemonView) (b : BasicRow)
    (hb : get_pokemon_basic db i = some b) (hv : get_pokemon_data db i = some v) :
    v.sprite_url = "/static/sprites/" ++ toString b.id ++ ".png" := by
  obtain ⟨b', hb', _, hveq⟩ := get_pokemon_data_eq hv
  rw [hb] at hb'
  cases hb'
  rw [hveq]
  rfl

/-- C3 (witness): the amended template at the concrete view for `"aaa"`. -/
theorem view_sprite_url_eq_witness :
    (mkView db0 ⟨1, "aaa", 1, "Aaa"⟩).sprite_url =
      "/static/sprites/" ++ toString 1 ++ ".png" :=
  view_sprite_url_eq db0 "aaa" (mkView db0 ⟨1, "aaa", 1, "Aaa"⟩)
    ⟨1, "aaa", 1, "Aaa"⟩ (by decide) rfl

-- ---------- C2 ----------

/-- C2 (counterexample): the composed view for `"aaa"` has the stat entry
`(value, percent) = (10, 5)`: the code truncates `10 / 180 * 100 = 5.55…` to
`5`, while the claimed formula `clamp(round(value / 180 * 100), 5, 100)`
yields `6`. -/
theorem view_stats_percent_counterexample :
    (get_pokemon_data db0 "aaa").map (fun v => v.stats.map fun e => (e.value, e.percent)) =
      some [(10, 5)] ∧
    Nat.max 5 (Nat.min (round ((10 : ℚ) / 180 * 100)).toNat 100) = 6 := by
  constructor
  · have h1 : get_pokemon_data db0 "aaa" = some (mkView db0 ⟨1, "aaa", 1, "Aaa"⟩) := rfl
    have h2 : statRowsFor db0 1 = [⟨1, "hp", "HP", 10⟩] := by decide
    have hp : (mkStatEntry db0 ⟨1, "hp", "HP", 10⟩).percent = 5 := by
      simp only [mkStatEntry, MAX_STAT_VIS]
      rw [if_pos (by norm_num)]
      rw [show (((10 : Nat) : ℚ) / ((180 : Nat) : ℚ) * 100) = 50/9 by norm_num]
      norm_num
    have hval : (mkStatEntry db0 ⟨1, "hp", "HP", 10⟩).value = 10 := rfl
    rw [h1]
    show some (((mkView db0 ⟨1, "aaa", 1, "Aaa"⟩).stats).map fun e => (e.value, e.percent)) =
      some [((10 : Nat), (5 : Nat))]
    rw [mkView_stats]
    show some (((statRowsFor db0 1).map (mkStatEntry db0)).map fun e => (e.value, e.percent)) =
      some [(10, 5)]
    rw [h2]
    simp [hp, hval]
  · rw [show ((10 : ℚ) / 180 * 100) = 50/9 by norm_num, round_eq]
    norm_num
    decide

/-- C2 (amended): in every successfully composed view the stats list is the
per-row emission of the stat query, each entry's `value` field is the raw base
stat unchanged, and its visual `percent` equals
`clamp(trunc(value / 180 * 100), 5, 100)` (Python `int()` truncates rather
than rounds); consequently the percent always lies in `[5, 100]`. -/
theorem view_stats_percent (db : DB) (i : String) (v : PokemonView) (b : BasicRow)
    (hb : get_pokemon_basic db i = some b) (hv : get_pokemon_data db i = some v) :
    v.stats = (statRowsFor db b.id).map (mkStatEntry db) ∧
    ∀ e ∈ v.stats,
      (∃ r ∈ statRowsFor db b.id, e.value = r.base_stat) ∧
      e.percent = Nat.max 5 (Nat.min (Int.toNat ⌊(e.value : ℚ) / 180 * 100⌋) 100) ∧
      5 ≤ e.percent ∧ e.percent ≤ 100 := by
  obtain ⟨b', hb', _, hveq⟩ := get_pokemon_data_eq hv
  rw [hb] at hb'
  cases hb'
  subst hveq
  rw [mkView_stats]
  refine ⟨rfl, ?_⟩
  intro e he
  obtain ⟨r, hr, rfl⟩ := List.mem_map.1 he
  refine ⟨⟨r, hr, rfl⟩, ?_, ?_, ?_⟩
  · show Nat.max 5 (Nat.min _ 100) = Nat.max 5 (Nat.min _ 100)
    simp [mkStatEntry, MAX_STAT_VIS]
  · exact Nat.le_max_left _ _
  · refine Nat.max_le.2 ⟨by norm_num, ?_⟩
    exact le_trans (Nat.min_le_right _ _) (le_refl _)

/-- C2 (witness): the amended statement applied to the concrete view for
`"aaa"`. -/
theorem view_stats_percent_witness :
    (mkView db0 ⟨1, "aaa", 1, "Aaa"⟩).stats =
      (statRowsFor db0 1).map (mkStatEntry db0) :=
  (view_stats_percent db0 "aaa" (mkView db0 ⟨1, "aaa", 1, "Aaa"⟩)
    ⟨1, "aaa", 1, "Aaa"⟩ (by decide) rfl).1

-- ---------- C9 ----------

/-- C9: the composed `forms` list is empty when the species has exactly one
sibling form row, and is the full sibling-form list when it has two or more. -/
theorem view_forms (db : DB) (i : String) (v : PokemonView) (b : BasicRow)
    (hb : get_pokemon_basic db i = some b) (hv : get_pokemon_data db i = some v) :
    ((formRowsFor db b.species_id).length = 1 → v.forms = []) ∧
    (2 ≤ (formRowsFor db b.species_id).length →
      v.forms = formRowsFor db b.species_id) := by
  obtain ⟨b', hb', _, hveq⟩ := get_pokemon_data_eq hv
  rw [hb] at hb'
  cases hb'
  subst hveq
  rw [mkView_forms]
  constructor
  · intro h1
    rw [if_pos (by omega)]
  · intro h2
    rw [if_neg (by omega)]

/-- C9 (witness): species 2 of `db0` has a single form (empty list emitted);
species 1 has two forms (full list emitted). -/
theorem view_forms_witness :
    (mkView db0 ⟨2, "bbb", 2, "Bbb"⟩).forms = [] ∧
    (mkView db0 ⟨1, "aaa", 1, "Aaa"⟩).forms = formRowsFor db0 1 := by
  constructor
  · exact (view_forms db0 "bbb" (mkView db0 ⟨2, "bbb", 2, "Bbb"⟩)
      ⟨2, "bbb", 2, "Bbb"⟩ (by decide) rfl).1 (by decide)
  · exact (view_forms db0 "aaa" (mkView db0 ⟨1, "aaa", 1, "Aaa"⟩)
      ⟨1, "aaa", 1, "Aaa"⟩ (by decide) rfl).2 (by decide)

-- ---------- C10 ----------

theorem sanitize_no_breaks (s : String) (c : Char) (hc : c ∈ (sanitize s).data) :
    c ≠ '\n' ∧ c ≠ '\x0c' := by
  simp only [sanitize, charReplace] at hc
  obtain ⟨d, _, rfl⟩ := List.mem_map.1 hc
  by_cases h2 : d = '\x0c'
  · rw [if_pos h2]
    constructor <;> decide
  · rw [if_neg h2]
    obtain ⟨e, _, rfl⟩ := List.mem_map.1 (by assumption : d ∈ s.data.map fun c =>
      if c = '\n' then ' ' else c)
    by_cases h3 : e = '\n'
    · rw [if_pos h3]
      constructor <;> decide
    · rw [if_neg h3]
      exact ⟨h3, by rw [if_neg h3] at h2; exact h2⟩

/-- C10: in every successfully composed view, the species `flavor_text`, every
ability's `flavor_text`, and every move's `effect` are (always-present) strings
in which no newline or form-feed character remains — each is either the
sanitized stored text or the empty-string default. -/
theorem view_sanitized_text (db : DB) (i : String) (v : PokemonView)
    (hv : get_pokemon_data db i = some v) :
    (∀ c ∈ v.flavor_text.data, c ≠ '\n' ∧ c ≠ '\x0c') ∧
    (∀ a ∈ v.abilities, ∀ c ∈ a.flavor_text.data, c ≠ '\n' ∧ c ≠ '\x0c') ∧
    (∀ m ∈ v.moves, ∀ c ∈ m.effect.data, c ≠ '\n' ∧ c ≠ '\x0c') := by
  obtain ⟨b, _, _, hveq⟩ := get_pokemon_data_eq hv
  subst hveq
  refine ⟨?_, ?_, ?_⟩
  · rw [mkView_flavor_text]
    unfold flavorTextFor
    cases pickMaxBy (fun f => f.version_id)
        (db.pokemon_species_flavor_text.filter fun f =>
          f.species_id == b.species_id && f.language_id == LANG_EN) with
    | none =>
      intro c hc
      simp at hc
    | some ft =>
      intro c hc
      exact sanitize_no_breaks _ c hc
  · rw [mkView_abilities]
    intro a ha c hc
    obtain ⟨r, _, rfl⟩ := List.mem_map.1 ha
    exact sanitize_no_breaks _ c hc
  · rw [mkView_moves]
    intro m hm c hc
    obtain ⟨r, _, rfl⟩ := List.mem_map.1 hm
    exact sanitize_no_breaks _ c hc

/-- C10 (witness): the sanitization facts at the concrete view for `"aaa"`,
whose stored flavor text and ability text contain newline and form-feed
characters. -/
theorem view_sanitized_text_witness :
    ('l' : Char) ≠ '\n' ∧ ('l' : Char) ≠ '\x0c' :=
  (view_sanitized_text db0 "aaa" (mkView db0 ⟨1, "aaa", 1, "Aaa"⟩) rfl).1 'l'
    (by decide)

-- ---------- string order facts ----------

theorem charListLe_total : ∀ as bs : List Char,
    charListLe as bs = true ∨ charListLe bs as = true
  | [], _ => Or.inl rfl
  | _ :: _, [] => Or.inr rfl
  | a :: as, b :: bs => by
    unfold charListLe
    rcases lt_trichotomy a b with h | h | h
    · left
      rw [if_pos h]
    · subst h
      rw [if_neg (lt_irrefl a), if_neg (lt_irrefl a), if_neg (lt_irrefl a),
        if_neg (lt_irrefl a)]
      exact charListLe_total as bs
    · right
      rw [if_pos h]

theorem charListLe_trans : ∀ as bs cs : List Char, charListLe as bs = true →
    charListLe bs cs = true → charListLe as cs = true
  | [], _, _, _, _ => rfl
  | _ :: _, [], _, h1, _ => by simp [charListLe] at h1
  | _ :: _, _ :: _, [], _, h2 => by simp [charListLe] at h2
  | a :: as, b :: bs, c :: cs, h1, h2 => by
    unfold charListLe at h1 h2 ⊢
    rcases lt_trichotomy a b with hab | hab | hab
    · rcases lt_trichotomy b c with hbc | hbc | hbc
      · rw [if_pos (lt_trans hab hbc)]
      · subst hbc
        rw [if_pos hab]
      · rw [if_neg (lt_asymm hbc), if_pos hbc] at h2
        simp at h2
    · subst hab
      rcases lt_trichotomy a c with hac | hac | hac
      · rw [if_pos hac]
      · subst hac
        rw [if_neg (lt_irrefl a), if_neg (lt_irrefl a)] at h1 h2 ⊢
        exact charListLe_trans as bs cs h1 h2
      · rw [if_neg (lt_asymm hac), if_pos hac] at h2
        simp at h2
    · rw [if_neg (lt_asymm hab), if_pos hab] at h1
      simp at h1

theorem strLe_total (a b : String) : strLe a b = true ∨ strLe b a = true :=
  charListLe_total a.data b.data

theorem strLe_trans (a b c : String) (h1 : strLe a b = true) (h2 : strLe b c = true) :
    strLe a c = true :=
  charListLe_trans a.data b.data c.data h1 h2

theorem charListLe_iff_not_lt : ∀ as bs : List Char,
    charListLe as bs = true ↔ ¬ List.lt bs as
  | [], bs => by
    constructor
    · intro _ h
      cases h
    · intro _
      rfl
  | a :: as, [] => by
    constructor
    · intro h
      simp [charListLe] at h
    · intro h
      exact absurd (List.lt.nil a as) h
  | a :: as, b :: bs => by
    unfold charListLe
    rcases lt_trichotomy a b with hab | hab | hab
    · rw [if_pos hab]
      constructor
      · intro _ h
        cases h with
        | head _ _ hba => exact lt_asymm hab hba
        | tail h1 h2 _ => exact h2 hab
      · intro _
        rfl
    · subst hab
      rw [if_neg (lt_irrefl a), if_neg (lt_irrefl a)]
      rw [charListLe_iff_not_lt as bs]
      constructor
      · intro h hlt
        cases hlt with
        | head _ _ hba => exact lt_irrefl a hba
        | tail h1 h2 hlt2 => exact h hlt2
      · intro h hlt
        exact h (List.lt.tail (lt_irrefl a) (lt_irrefl a) hlt)
    · rw [if_neg (lt_asymm hab), if_pos hab]
      constructor
      · intro h
        simp at h
      · intro h
        exact absurd (List.lt.head _ _ hab) h

/-- The executable comparison `strLe` decides the standard `String` order. -/
theorem strLe_iff_le (a b : String) : strLe a b = true ↔ a ≤ b := by
  rw [show strLe a b = charListLe a.data b.data from rfl,
    charListLe_iff_not_lt a.data b.data, String.le_iff_toList_le]
  constructor
  · intro h
    refine not_lt.1 fun hlt => h ((List.lt_iff_lex_lt _ _).2 hlt)
  · intro h hlt
    exact absurd ((List.lt_iff_lex_lt _ _).1 hlt) (not_lt.2 h)

-- ---------- C6 ----------

theorem moveLe_iff (a b : MoveJoinRow) :
    moveLe a b = true ↔ (a.pm.level < b.pm.level ∨
      (a.pm.level = b.pm.level ∧ strLe a.m.identifier b.m.identifier = true)) := by
  unfold moveLe
  simp [Bool.or_eq_true, Bool.and_eq_true]

theorem moveLe_total (a b : MoveJoinRow) : moveLe a b = true ∨ moveLe b a = true := by
  rw [moveLe_iff, moveLe_iff]
  rcases lt_trichotomy a.pm.level b.pm.level with h | h | h
  · exact Or.inl (Or.inl h)
  · rcases strLe_total a.m.identifier b.m.identifier with hs | hs
    · exact Or.inl (Or.inr ⟨h, hs⟩)
    · exact Or.inr (Or.inr ⟨h.symm, hs⟩)
  · exact Or.inr (Or.inl h)

theorem moveLe_trans (a b c : MoveJoinRow) (h1 : moveLe a b = true)
    (h2 : moveLe b c = true) : moveLe a c = true := by
  rw [moveLe_iff] at h1 h2 ⊢
  rcases h1 with h1 | ⟨h1e, h1s⟩ <;> rcases h2 with h2 | ⟨h2e, h2s⟩
  · exact Or.inl (lt_trans h1 h2)
  · exact Or.inl (h2e ▸ h1)
  · exact Or.inl (h1e ▸ h2)
  · exact Or.inr ⟨h1e.trans h2e, strLe_trans _ _ _ h1s h2s⟩

theorem sortedMoveRows_mem (db : DB) (pid : Nat) (r : MoveJoinRow) :
    r ∈ sortedMoveRows db pid ↔ r ∈ moveJoinRows db pid := by
  unfold sortedMoveRows
  exact List.mem_insertionSort _

theorem sortedMoveRows_sorted (db : DB) (pid : Nat) :
    (sortedMoveRows db pid).Pairwise (fun a b => moveLe a b = true) := by
  haveI : IsTotal MoveJoinRow (fun a b => moveLe a b = true) := ⟨moveLe_total⟩
  haveI : IsTrans MoveJoinRow (fun a b => moveLe a b = true) := ⟨moveLe_trans⟩
  exact List.sorted_insertionSort _ _

theorem leftJoin_exists (l : List α) : ∃ o, o ∈ leftJoin l := by
  unfold leftJoin
  by_cases h : l.isEmpty
  · rw [if_pos h]
    exact ⟨none, List.mem_singleton_self _⟩
  · rw [if_neg h]
    cases l with
    | nil => simp at h
    | cons x xs => exact ⟨some x, List.mem_map_of_mem _ (List.mem_cons_self _ _)⟩

theorem moveJoinRows_sound (db : DB) (pid : Nat) (r : MoveJoinRow)
    (hr : r ∈ moveJoinRows db pid) :
    r.pm ∈ db.pokemon_moves ∧ r.pm.pokemon_id = pid ∧
      r.pm.version_group_id = BW_VERSION_GROUP_ID ∧
      r.pm.pokemon_move_method_id = LEVELUP_METHOD_ID ∧
      r.m ∈ db.moves ∧ r.m.id = r.pm.move_id := by
  unfold moveJoinRows at hr
  simp only [List.mem_flatMap, List.mem_filter, List.mem_map, Bool.and_eq_true,
    beq_iff_eq] at hr
  obtain ⟨pm, hpm1, hr⟩ := hr
  obtain ⟨m, hm1, hr⟩ := hr
  obtain ⟨mn, _, hr⟩ := hr
  obtain ⟨t, _, hr⟩ := hr
  obtain ⟨tn, _, hr⟩ := hr
  obtain ⟨mdc, _, hr⟩ := hr
  obtain ⟨mdcp, _, hr⟩ := hr
  obtain ⟨mep, _, hrec⟩ := hr
  subst hrec
  exact ⟨hpm1.1, hpm1.2.1.1, hpm1.2.1.2, hpm1.2.2, hm1.1, hm1.2⟩

theorem moveJoinRows_complete (db : DB) (pid : Nat) (pm : PokemonMove) (m : Move)
    (hpm : pm ∈ db.pokemon_moves) (hpid : pm.pokemon_id = pid)
    (hvg : pm.version_group_id = BW_VERSION_GROUP_ID)
    (hmm : pm.pokemon_move_method_id = LEVELUP_METHOD_ID)
    (hm : m ∈ db.moves) (hmid : m.id = pm.move_id) :
    ∃ r ∈ moveJoinRows db pid, r.pm = pm ∧ r.m = m := by
  obtain ⟨mn, hmn⟩ := leftJoin_exists (db.move_names.filter fun x =>
    x.move_id == m.id && x.local_language_id == LANG_EN)
  obtain ⟨t, htm⟩ := leftJoin_exists (match m.type_id with
    | none => []
    | some tid => db.types.filter fun x => x.id == tid)
  obtain ⟨tn, htn⟩ := leftJoin_exists (match t with
    | none => []
    | some tr => db.type_names.filter fun x =>
        x.type_id == tr.id && x.local_language_id == LANG_EN)
  obtain ⟨mdc, hmdc⟩ := leftJoin_exists (match m.damage_class_id with
    | none => []
    | some did => db.move_damage_classes.filter fun x => x.id == did)
  obtain ⟨mdcp, hmdcp⟩ := leftJoin_exists (match mdc with
    | none => []
    | some d => db.move_damage_class_prose.filter fun x =>
        x.move_damage_class_id == d.id && x.local_language_id == LANG_EN)
  obtain ⟨mep, hmep⟩ := leftJoin_exists (match m.effect_id with
    | none => []
    | some eid => db.move_effect_prose.filter fun x =>
        x.move_effect_id == eid && x.local_language_id == LANG_EN)
  refine ⟨{ pm := pm, m := m
            move_name := match mn with | some mnr => mnr.name | none => m.identifier
            type_identifier := t.map (·.identifier)
            type_name := tn.map (·.name)
            damage_class_name := mdcp.map (·.name)
            short_effect := match mep with | some p => p.short_effect | none => none },
    ?_, rfl, rfl⟩
  unfold moveJoinRows
  simp only [List.mem_flatMap, List.mem_filter, List.mem_map, Bool.and_eq_true,
    beq_iff_eq]
  refine ⟨pm, ⟨hpm, ?_⟩, m, ⟨hm, hmid⟩, mn, hmn, t, htm, tn, htn,
    mdc, hmdc, mdcp, hmdcp, mep, hmep, ?_⟩
  · exact ⟨⟨hpid, hvg⟩, hmm⟩
  · rcases mn with _ | mnr <;> rcases mep with _ | mepr <;> rfl

/-- C6: the composed move list is exactly the formatted emission of the sorted
move rows; those rows are, as a set, the join rows for the fixed
`(version group 11, level-up)` context — every row stems from a `pokemon_moves`
row of this pokémon with exactly that version group and method joined to its
`moves` row, and every such pair contributes a row — and they are ordered by
level ascending, then by the move's internal identifier ascending
lexicographically. -/
theorem view_moves (db : DB) (i : String) (v : PokemonView) (b : BasicRow)
    (hb : get_pokemon_basic db i = some b) (hv : get_pokemon_data db i = some v) :
    v.moves = (sortedMoveRows db b.id).map mkMoveEntry ∧
    (sortedMoveRows db b.id).Pairwise (fun x y => x.pm.level < y.pm.level ∨
      (x.pm.level = y.pm.level ∧ x.m.identifier ≤ y.m.identifier)) ∧
    (∀ r, r ∈ sortedMoveRows db b.id ↔ r ∈ moveJoinRows db b.id) ∧
    (∀ r ∈ sortedMoveRows db b.id,
      r.pm ∈ db.pokemon_moves ∧ r.pm.pokemon_id = b.id ∧
      r.pm.version_group_id = BW_VERSION_GROUP_ID ∧
      r.pm.pokemon_move_method_id = LEVELUP_METHOD_ID ∧
      r.m ∈ db.moves ∧ r.m.id = r.pm.move_id) ∧
    (∀ pm ∈ db.pokemon_moves, pm.pokemon_id = b.id →
      pm.version_group_id = BW_VERSION_GROUP_ID →
      pm.pokemon_move_method_id = LEVELUP_METHOD_ID →
      ∀ m ∈ db.moves, m.id = pm.move_id →
      ∃ r ∈ sortedMoveRows db b.id, r.pm = pm ∧ r.m = m) := by
  obtain ⟨b', hb', _, hveq⟩ := get_pokemon_data_eq hv
  rw [hb] at hb'
  cases hb'
  subst hveq
  refine ⟨mkView_moves db b, ?_, sortedMoveRows_mem db b.id, ?_, ?_⟩
  · refine (sortedMoveRows_sorted db b.id).imp fun h => ?_
    rcases (moveLe_iff _ _).1 h with h1 | ⟨h1, h2⟩
    · exact Or.inl h1
    · exact Or.inr ⟨h1, (strLe_iff_le _ _).1 h2⟩
  · intro r hr
    exact moveJoinRows_sound db b.id r ((sortedMoveRows_mem db b.id r).1 hr)
  · intro pm hpm hpid hvg hmm m hm hmid
    obtain ⟨r, hr, hrpm, hrm⟩ := moveJoinRows_complete db b.id pm m hpm hpid hvg hmm hm hmid
    exact ⟨r, (sortedMoveRows_mem db b.id r).2 hr, hrpm, hrm⟩

/-- C6 (witness): the emitted move list of the concrete view for `"aaa"` is the
formatted sorted row list (only the two rows in the fixed context survive). -/
theorem view_moves_witness :
    (mkView db0 ⟨1, "aaa", 1, "Aaa"⟩).moves = (sortedMoveRows db0 1).map mkMoveEntry :=
  (view_moves db0 "aaa" (mkView db0 ⟨1, "aaa", 1, "Aaa"⟩) ⟨1, "aaa", 1, "Aaa"⟩
    (by decide) rfl).1

-- ---------- C7 ----------

theorem addEncounter_nodup : ∀ (acc : List (String × List String))
    (r : String × String), (∀ p ∈ acc, p.2.Nodup) →
    ∀ p ∈ addEncounter acc r, p.2.Nodup
  | [], r, _ => by
    intro p hp
    simp only [addEncounter, List.mem_singleton] at hp
    subst hp
    exact List.nodup_singleton _
  | (k, ls) :: rest, r, h => by
    intro p hp
    unfold addEncounter at hp
    by_cases hk : k = r.1
    · rw [if_pos hk] at hp
      rcases List.mem_cons.1 hp with rfl | hp'
      · show (if r.2 ∈ ls then ls else ls ++ [r.2]).Nodup
        by_cases hm : r.2 ∈ ls
        · rw [if_pos hm]
          exact h (k, ls) (List.mem_cons_self _ _)
        · rw [if_neg hm]
          refine List.nodup_append.2
            ⟨h (k, ls) (List.mem_cons_self _ _), List.nodup_singleton _, ?_⟩
          intro a ha hb
          rw [List.mem_singleton] at hb
          exact hm (hb ▸ ha)
      · exact h _ (List.mem_cons_of_mem _ hp')
    · rw [if_neg hk] at hp
      rcases List.mem_cons.1 hp with rfl | hp'
      · exact h _ (List.mem_cons_self _ _)
      · exact addEncounter_nodup rest r (fun q hq => h q (List.mem_cons_of_mem _ hq)) p hp'

theorem foldl_addEncounter_nodup : ∀ (rows : List (String × String))
    (acc : List (String × List String)), (∀ p ∈ acc, p.2.Nodup) →
    ∀ p ∈ rows.foldl addEncounter acc, p.2.Nodup
  | [], _, h => h
  | r :: rows, acc, h =>
    foldl_addEncounter_nodup rows (addEncounter acc r) (addEncounter_nodup acc r h)

theorem encountersFor_props (db : DB) (pid : Nat) :
    (∀ e ∈ encountersFor db pid, e.locations.Nodup ∧
      e.locations.Pairwise (fun x y => strLe x y = true) ∧
      e.locations.length ≤ 5) ∧
    (encountersFor db pid).Pairwise (fun x y => strLe x.version y.version = true) := by
  haveI hts : IsTotal String (fun a b => strLe a b = true) := ⟨strLe_total⟩
  haveI htr : IsTrans String (fun a b => strLe a b = true) :=
    ⟨fun a b c => strLe_trans a b c⟩
  constructor
  · intro e he
    unfold encountersFor at he
    rw [List.mem_insertionSort] at he
    obtain ⟨vl, hvl, rfl⟩ := List.mem_map.1 he
    have hnd : vl.2.Nodup :=
      foldl_addEncounter_nodup (encounterJoinRows db pid) [] (by simp) vl hvl
    refine ⟨?_, ?_, ?_⟩
    · exact List.Nodup.sublist (List.take_sublist _ _)
        ((List.perm_insertionSort _ _).nodup_iff.2 hnd)
    · exact List.Pairwise.sublist (List.take_sublist _ _)
        (List.sorted_insertionSort _ _)
    · exact List.length_take_le _ _
  · haveI : IsTotal EncounterEntry (fun a b => strLe a.version b.version = true) :=
      ⟨fun a b => strLe_total _ _⟩
    haveI : IsTrans EncounterEntry (fun a b => strLe a.version b.version = true) :=
      ⟨fun a b c => strLe_trans _ _ _⟩
    exact List.sorted_insertionSort _ _

/-- C7: in every successfully composed view, the encounters list is the
grouped emission of the raw per-version pairs: within each version entry the
locations are distinct, sorted by the lexicographic string order, and never
number more than 5, and the version entries themselves are sorted by version
name. -/
theorem view_encounters (db : DB) (i : String) (v : PokemonView) (b : BasicRow)
    (hb : get_pokemon_basic db i = some b) (hv : get_pokemon_data db i = some v) :
    v.encounters = encountersFor db b.id ∧
    (∀ e ∈ v.encounters, e.locations.Nodup ∧
      e.locations.Pairwise (fun x y => x ≤ y) ∧
      e.locations.length ≤ 5) ∧
    v.encounters.Pairwise (fun x y => x.version ≤ y.version) := by
  obtain ⟨b', hb', _, hveq⟩ := get_pokemon_data_eq hv
  rw [hb] at hb'
  cases hb'
  subst hveq
  rw [mkView_encounters]
  refine ⟨rfl, ?_, ?_⟩
  · intro e he
    obtain ⟨hnd, hsort, hlen⟩ := (encountersFor_props db b.id).1 e he
    exact ⟨hnd, hsort.imp fun h => (strLe_iff_le _ _).1 h, hlen⟩
  · exact (encountersFor_props db b.id).2.imp fun h => (strLe_iff_le _ _).1 h

/-- C7 (witness): the concrete view for `"aaa"` (two raw rows in one version)
emits exactly the grouped encounter list. -/
theorem view_encounters_witness :
    (mkView db0 ⟨1, "aaa", 1, "Aaa"⟩).encounters = encountersFor db0 1 :=
  (view_encounters db0 "aaa" (mkView db0 ⟨1, "aaa", 1, "Aaa"⟩) ⟨1, "aaa", 1, "Aaa"⟩
    (by decide) rfl).1

-- ---------- C8 ----------

theorem mem_of_head_eq_some {l : List α} {a : α} (h : l.head? = some a) : a ∈ l := by
  cases l with
  | nil => simp at h
  | cons x xs =>
    simp only [List.head?_cons, Option.some_inj] at h
    subst h
    exact List.mem_cons_self _ _

theorem pickMaxBy_mem {f : α → Nat} : ∀ {l : List α} {r : α},
    pickMaxBy f l = some r → r ∈ l
  | [], r, h => by simp [pickMaxBy] at h
  | x :: xs, r, h => by
    unfold pickMaxBy at h
    cases hrec : pickMaxBy f xs with
    | none =>
      rw [hrec] at h
      obtain rfl := Option.some_inj.1 h
      exact List.mem_cons_self _ _
    | some b =>
      rw [hrec] at h
      replace h : (if f b < f x then some x else some b) = some r := h
      by_cases hfb : f b < f x
      · rw [if_pos hfb] at h
        obtain rfl := Option.some_inj.1 h
        exact List.mem_cons_self _ _
      · rw [if_neg hfb] at h
        obtain rfl := Option.some_inj.1 h
        exact List.mem_cons_of_mem _ (pickMaxBy_mem hrec)

theorem pickMaxBy_isSome {f : α → Nat} (x : α) (xs : List α) :
    (pickMaxBy f (x :: xs)).isSome = true := by
  unfold pickMaxBy
  cases pickMaxBy f xs with
  | none => rfl
  | some b =>
    show (if f b < f x then some x else some b).isSome = true
    by_cases hfb : f b < f x
    · rw [if_pos hfb]; rfl
    · rw [if_neg hfb]; rfl

theorem pickMaxBy_le {f : α → Nat} : ∀ {l : List α} {r : α},
    pickMaxBy f l = some r → ∀ x ∈ l, f x ≤ f r
  | [], r, h => by simp [pickMaxBy] at h
  | x :: xs, r, h => by
    intro y hy
    unfold pickMaxBy at h
    cases hrec : pickMaxBy f xs with
    | none =>
      rw [hrec] at h
      obtain rfl := Option.some_inj.1 h
      rcases List.mem_cons.1 hy with rfl | hy'
      · exact le_refl _
      · exfalso
        cases xs with
        | nil => simp at hy'
        | cons z zs =>
          have := pickMaxBy_isSome (f := f) z zs
          rw [hrec] at this
          simp at this
    | some b =>
      rw [hrec] at h
      replace h : (if f b < f x then some x else some b) = some r := h
      rcases List.mem_cons.1 hy with rfl | hy'
      · by_cases hfb : f b < f y
        · rw [if_pos hfb] at h
          obtain rfl := Option.some_inj.1 h
          exact le_refl _
        · rw [if_neg hfb] at h
          obtain rfl := Option.some_inj.1 h
          exact Nat.le_of_not_lt hfb
      · have hle := pickMaxBy_le hrec y hy'
        by_cases hfb : f b < f x
        · rw [if_pos hfb] at h
          obtain rfl := Option.some_inj.1 h
          exact le_trans hle (Nat.le_of_lt hfb)
        · rw [if_neg hfb] at h
          obtain rfl := Option.some_inj.1 h
          exact hle

theorem pickMinBy_mem {f : α → Nat} : ∀ {l : List α} {r : α},
    pickMinBy f l = some r → r ∈ l
  | [], r, h => by simp [pickMinBy] at h
  | x :: xs, r, h => by
    unfold pickMinBy at h
    cases hrec : pickMinBy f xs with
    | none =>
      rw [hrec] at h
      obtain rfl := Option.some_inj.1 h
      exact List.mem_cons_self _ _
    | some b =>
      rw [hrec] at h
      replace h : (if f x < f b then some x else some b) = some r := h
      by_cases hfb : f x < f b
      · rw [if_pos hfb] at h
        obtain rfl := Option.some_inj.1 h
        exact List.mem_cons_self _ _
      · rw [if_neg hfb] at h
        obtain rfl := Option.some_inj.1 h
        exact List.mem_cons_of_mem _ (pickMinBy_mem hrec)

theorem pickMinBy_isSome {f : α → Nat} (x : α) (xs : List α) :
    (pickMinBy f (x :: xs)).isSome = true := by
  unfold pickMinBy
  cases pickMinBy f xs with
  | none => rfl
  | some b =>
    show (if f x < f b then some x else some b).isSome = true
    by_cases hfb : f x < f b
    · rw [if_pos hfb]; rfl
    · rw [if_neg hfb]; rfl

theorem pickMinBy_le {f : α → Nat} : ∀ {l : List α} {r : α},
    pickMinBy f l = some r → ∀ x ∈ l, f r ≤ f x
  | [], r, h => by simp [pickMinBy] at h
  | x :: xs, r, h => by
    intro y hy
    unfold pickMinBy at h
    cases hrec : pickMinBy f xs with
    | none =>
      rw [hrec] at h
      obtain rfl := Option.some_inj.1 h
      rcases List.mem_cons.1 hy with rfl | hy'
      · exact le_refl _
      · exfalso
        cases xs with
        | nil => simp at hy'
        | cons z zs =>
          have := pickMinBy_isSome (f := f) z zs
          rw [hrec] at this
          simp at this
    | some b =>
      rw [hrec] at h
      replace h : (if f x < f b then some x else some b) = some r := h
      rcases List.mem_cons.1 hy with rfl | hy'
      · by_cases hfb : f y < f b
        · rw [if_pos hfb] at h
          obtain rfl := Option.some_inj.1 h
          exact le_refl _
        · rw [if_neg hfb] at h
          obtain rfl := Option.some_inj.1 h
          exact Nat.le_of_not_lt hfb
      · have hle := pickMinBy_le hrec y hy'
        by_cases hfb : f x < f b
        · rw [if_pos hfb] at h
          obtain rfl := Option.some_inj.1 h
          exact le_trans (Nat.le_of_lt hfb) hle
        · rw [if_neg hfb] at h
          obtain rfl := Option.some_inj.1 h
          exact hle

theorem navJoinRows_mk_mem {db : DB} {s : PokemonSpecies} {n : SpeciesName}
    (hs : s ∈ db.pokemon_species) (hn : n ∈ db.pokemon_species_names)
    (h1 : n.pokemon_species_id = s.id) (h2 : n.local_language_id = LANG_EN) :
    (s, n) ∈ navJoinRows db := by
  unfold navJoinRows
  simp only [List.mem_flatMap, List.mem_map, List.mem_filter, Bool.and_eq_true,
    beq_iff_eq]
  exact ⟨s, hs, n, ⟨hn, h1, h2⟩, rfl⟩

theorem nav_prev_for_spec {db : DB} {sid : Nat} {p : NavEntry}
    (h : nav_prev_for db sid = some p) :
    (∃ r ∈ navJoinRows db, r.1.id = p.dex) ∧ p.dex < sid ∧
      ∀ x ∈ navJoinRows db, x.1.id < sid → x.1.id ≤ p.dex := by
  unfold nav_prev_for at h
  cases hq : pickMaxBy (fun r => r.1.id)
      ((navJoinRows db).filter fun r => decide (r.1.id < sid)) with
  | none =>
    rw [hq] at h
    simp at h
  | some r =>
    rw [hq] at h
    replace h : some (⟨r.1.id, r.1.identifier, r.2.name⟩ : NavEntry) = some p := h
    obtain rfl := Option.some_inj.1 h
    have hmem := pickMaxBy_mem hq
    rw [List.mem_filter] at hmem
    refine ⟨⟨r, hmem.1, rfl⟩, by simpa using hmem.2, ?_⟩
    intro x hx hxlt
    exact pickMaxBy_le hq x (List.mem_filter.2 ⟨hx, by simpa using hxlt⟩)

theorem nav_next_for_spec {db : DB} {sid : Nat} (r0 : PokemonSpecies × SpeciesName)
    (h0 : r0 ∈ navJoinRows db) (hgt : sid < r0.1.id) :
    ∃ nx, nav_next_for db sid = some nx ∧ sid < nx.dex ∧ nx.dex ≤ r0.1.id ∧
      ∃ r ∈ navJoinRows db, r.1.id = nx.dex := by
  have hmem0 : r0 ∈ (navJoinRows db).filter (fun r => decide (sid < r.1.id)) :=
    List.mem_filter.2 ⟨h0, by simpa using hgt⟩
  unfold nav_next_for
  cases hq : pickMinBy (fun r => r.1.id)
      ((navJoinRows db).filter fun r => decide (sid < r.1.id)) with
  | none =>
    exfalso
    cases hl : (navJoinRows db).filter (fun r => decide (sid < r.1.id)) with
    | nil => rw [hl] at hmem0; simp at hmem0
    | cons z zs =>
      have := pickMinBy_isSome (f := fun r => r.1.id) z zs
      rw [← hl, hq] at this
      simp at this
  | some r =>
    have hmem := pickMinBy_mem hq
    have hrle := pickMinBy_le hq r0 hmem0
    rw [List.mem_filter] at hmem
    refine ⟨⟨r.1.id, r.1.identifier, r.2.name⟩, rfl,
      by simpa using hmem.2, hrle, ⟨r, hmem.1, rfl⟩⟩

theorem get_pokemon_basic_name_row {db : DB} {i : String} {b : BasicRow}
    (h : get_pokemon_basic db i = some b) :
    ∃ n ∈ db.pokemon_species_names, n.pokemon_species_id = b.species_id ∧
      n.local_language_id = LANG_EN := by
  unfold get_pokemon_basic at h
  have hb := mem_of_head_eq_some h
  simp only [List.mem_flatMap, List.mem_filter, List.mem_map, Bool.and_eq_true,
    beq_iff_eq] at hb
  obtain ⟨p, hp1, hb⟩ := hb
  obtain ⟨pf, _, hb⟩ := hb
  obtain ⟨pfn, _, hb⟩ := hb
  obtain ⟨psn, hpsn, hrec⟩ := hb
  subst hrec
  exact ⟨psn, hpsn.1, hpsn.2.1, hpsn.2.2⟩

theorem nav_next_for_spec2 {db : DB} {sid : Nat} {n : NavEntry}
    (h : nav_next_for db sid = some n) :
    (∃ r ∈ navJoinRows db, r.1.id = n.dex) ∧ sid < n.dex ∧
      ∀ x ∈ navJoinRows db, sid < x.1.id → n.dex ≤ x.1.id := by
  unfold nav_next_for at h
  cases hq : pickMinBy (fun r => r.1.id)
      ((navJoinRows db).filter fun r => decide (sid < r.1.id)) with
  | none =>
    rw [hq] at h
    simp at h
  | some r =>
    rw [hq] at h
    replace h : some (⟨r.1.id, r.1.identifier, r.2.name⟩ : NavEntry) = some n := h
    obtain rfl := Option.some_inj.1 h
    have hmem := pickMinBy_mem hq
    rw [List.mem_filter] at hmem
    refine ⟨⟨r, hmem.1, rfl⟩, by simpa using hmem.2, ?_⟩
    intro x hx hxgt
    exact pickMinBy_le hq x (List.mem_filter.2 ⟨hx, by simpa using hxgt⟩)

theorem nav_prev_for_total {db : DB} {sid : Nat} (r0 : PokemonSpecies × SpeciesName)
    (h0 : r0 ∈ navJoinRows db) (hlt : r0.1.id < sid) :
    ∃ p, nav_prev_for db sid = some p ∧ p.dex < sid ∧ r0.1.id ≤ p.dex ∧
      ∃ r ∈ navJoinRows db, r.1.id = p.dex := by
  have hmem0 : r0 ∈ (navJoinRows db).filter (fun r => decide (r.1.id < sid)) :=
    List.mem_filter.2 ⟨h0, by simpa using hlt⟩
  unfold nav_prev_for
  cases hq : pickMaxBy (fun r => r.1.id)
      ((navJoinRows db).filter fun r => decide (r.1.id < sid)) with
  | none =>
    exfalso
    cases hl : (navJoinRows db).filter (fun r => decide (r.1.id < sid)) with
    | nil => rw [hl] at hmem0; simp at hmem0
    | cons z zs =>
      have := pickMaxBy_isSome (f := fun r => r.1.id) z zs
      rw [← hl, hq] at this
      simp at this
  | some r =>
    have hmem := pickMaxBy_mem hq
    have hrle := pickMaxBy_le hq r0 hmem0
    rw [List.mem_filter] at hmem
    refine ⟨⟨r.1.id, r.1.identifier, r.2.name⟩, rfl, by simpa using hmem.2, hrle,
      ⟨r, hmem.1, rfl⟩⟩

/-- C8: navigation is a round trip in both directions — given two composed
views (and the first species' id existing in `pokemon_species`, as referential
integrity guarantees): when the first view's `nav_prev` exists and the second
view resolves to that previous species, the second view's `nav_next` points
back to the first view's species id; and symmetrically, when the first view's
`nav_next` exists and the second view resolves to that next species, the
second view's `nav_prev` points back to the first view's species id. -/
theorem nav_roundtrip (db : DB) (i1 i2 : String) (v1 v2 : PokemonView)
    (h1 : get_pokemon_data db i1 = some v1)
    (h3 : get_pokemon_data db i2 = some v2)
    (hfk : ∃ s ∈ db.pokemon_species, s.id = v1.dex) :
    (∀ p : NavEntry, v1.nav_prev = some p → v2.dex = p.dex →
      v2.nav_next.map NavEntry.dex = some v1.dex) ∧
    (∀ n : NavEntry, v1.nav_next = some n → v2.dex = n.dex →
      v2.nav_prev.map NavEntry.dex = some v1.dex) := by
  obtain ⟨b1, hb1, _, hv1⟩ := get_pokemon_data_eq h1
  obtain ⟨b2, hb2, _, hv2⟩ := get_pokemon_data_eq h3
  subst hv1
  subst hv2
  rw [mkView_dex] at hfk
  obtain ⟨nrow, hnmem, hnsid, hnlang⟩ := get_pokemon_basic_name_row hb1
  obtain ⟨s, hsmem, hsid⟩ := hfk
  have hr0 : (s, nrow) ∈ navJoinRows db :=
    navJoinRows_mk_mem hsmem hnmem (by rw [hnsid, hsid]) hnlang
  constructor
  · intro p h2 h4
    rw [mkView_nav_prev] at h2
    rw [mkView_dex] at h4 ⊢
    rw [mkView_nav_next, h4]
    obtain ⟨hex, hlt, hmax⟩ := nav_prev_for_spec h2
    have hgt0 : p.dex < (s, nrow).1.id := by
      show p.dex < s.id
      rw [hsid]
      exact hlt
    obtain ⟨nx, hnx, hgt, hle, r, hrmem, hrid⟩ := nav_next_for_spec (s, nrow) hr0 hgt0
    rw [hnx]
    have hnxdex : nx.dex = b1.species_id := by
      rcases lt_or_eq_of_le (show nx.dex ≤ b1.species_id by rw [← hsid]; exact hle)
          with hlt2 | heq
      · exfalso
        have := hmax r hrmem (by rw [hrid]; exact hlt2)
        rw [hrid] at this
        exact absurd hgt (not_lt_of_le this)
      · exact heq
    rw [Option.map_some', hnxdex]
  · intro n h2 h4
    rw [mkView_nav_next] at h2
    rw [mkView_dex] at h4 ⊢
    rw [mkView_nav_prev, h4]
    obtain ⟨hex, hgt, hmin⟩ := nav_next_for_spec2 h2
    have hlt0 : (s, nrow).1.id < n.dex := by
      show s.id < n.dex
      rw [hsid]
      exact hgt
    obtain ⟨p, hp, hplt, hple, r, hrmem, hrid⟩ := nav_prev_for_total (s, nrow) hr0 hlt0
    rw [hp]
    have hpdex : p.dex = b1.species_id := by
      rcases lt_or_eq_of_le (show b1.species_id ≤ p.dex by rw [← hsid]; exact hple)
          with hlt2 | heq
      · exfalso
        have := hmin r hrmem (by rw [hrid]; exact hlt2)
        rw [hrid] at this
        exact absurd hplt (not_lt_of_le this)
      · exact heq.symm
    rw [Option.map_some', hpdex]

/-- C8 (witness): in `db0`, the view for `"bbb"` (species 2) has
`nav_prev = species 1` and composing `"aaa"` (species 1) yields `nav_next`
pointing back to species 2; symmetrically, the view for `"aaa"` has
`nav_next = species 2` and composing `"bbb"` yields `nav_prev` pointing back
to species 1. -/
theorem nav_roundtrip_witness :
    (mkView db0 ⟨1, "aaa", 1, "Aaa"⟩).nav_next.map NavEntry.dex = some 2 ∧
    (mkView db0 ⟨2, "bbb", 2, "Bbb"⟩).nav_prev.map NavEntry.dex = some 1 := by
  constructor
  · exact (nav_roundtrip db0 "bbb" "aaa" (mkView db0 ⟨2, "bbb", 2, "Bbb"⟩)
      (mkView db0 ⟨1, "aaa", 1, "Aaa"⟩) rfl rfl (by decide)).1 ⟨1, "aaa", "Aaa"⟩
      (by decide) (by decide)
  · exact (nav_roundtrip db0 "aaa" "bbb" (mkView db0 ⟨1, "aaa", 1, "Aaa"⟩)
      (mkView db0 ⟨2, "bbb", 2, "Bbb"⟩) rfl rfl (by decide)).2 ⟨2, "bbb", "Bbb"⟩
      (by decide) (by decide)
